import Mathlib

/-!
# Dynamic-feature descriptor parser and frame probe of `test-vcu-encode.c`

A shallow embedding of `examples/zynqultrascaleplus/test-vcu-encode.c`:

* `get_dynamic_str_enum`, `parse_dynamic_user_string` (the descriptor parser),
* `videoparser_src_buffer_probe` (the per-frame pad probe),

together with the library functions they call (`g_strsplit_set`, `g_strcmp0`,
`atoi`, `g_strdup`, `g_object_set`, the GStreamer event and meta calls), each
modelled from its documented contract.

Conventions.

* A C string is the list of its characters before the terminating NUL; a
  list that contains a NUL character stands for no C string.
* `guint` is a natural number below `2 ^ 32`, `int` an integer in
  `[-2 ^ 31, 2 ^ 31)`; conversions are written out with `%`.
* Reading a NULL string in `atoi`, or a slot behind the NULL terminator of the
  token vector, is undefined behaviour in C; the model reports it as the
  outcome `undefined`.
-/

namespace VcuEncode

/-! ## Constants of the source -/

def DYNAMIC_BITRATE_STR : List Char := "BR".data
def DYNAMIC_GOP_LENGTH_STR : List Char := "GL".data
def DYNAMIC_B_FRAMES_STR : List Char := "BFrm".data
def DYNAMIC_ROI_STR : List Char := "ROI".data
def DYNAMIC_KEY_FRAME_STR : List Char := "KF".data
def DYNAMIC_SCENE_CHANGE_STR : List Char := "SC".data
def DYNAMIC_INSERT_LONGTERM_STR : List Char := "IL".data
def DYNAMIC_USE_LONGTERM_STR : List Char := "UL".data

/-- The macro `DYNAMIC_FEATURE_DELIMIT`; the source defines it and never uses it. -/
def DYNAMIC_FEATURE_DELIMIT : List Char := ",".data

/-- The macro `DYNAMIC_PARAM_DELIMIT`: a set of two delimiter characters. -/
def DYNAMIC_PARAM_DELIMIT : List Char := ":x".data

/-! ## Data model -/

/-- The enum `DynamicFeatureType`, in the order of the source. -/
inductive DynamicFeatureType
  | DYNAMIC_BIT_RATE
  | DYNAMIC_GOP_LENGTH
  | DYNAMIC_KEY_FRAME
  | DYNAMIC_B_FRAMES
  | DYNAMIC_ROI
  | DYNAMIC_SCENE_CHANGE
  | DYNAMIC_INSERT_LONGTERM
  | DYNAMIC_USE_LONGTERM
  deriving DecidableEq, Repr

open DynamicFeatureType

/-- Storage of the union `param`.  The member `roi` is the five fields; the
member `value` is a `guint` at offset 0 and so shares its storage with `roi.x`.
`quality` is a `gchar *`: `none` is the NULL pointer. -/
structure Param where
  x : Nat
  y : Nat
  width : Nat
  height : Nat
  quality : Option String
  deriving DecidableEq, Repr

/-- Reading the union member `param.value`. -/
def Param.value (p : Param) : Nat := p.x

/-- Writing the union member `param.value`. -/
def Param.setValue (p : Param) (v : Nat) : Param := { p with x := v }

/-- The struct `DynamicFeature`. -/
structure DynamicFeature where
  type : DynamicFeatureType
  start_frame : Nat
  param : Param
  deriving DecidableEq, Repr

/-- Properties of the encoder element, by name (the store behind `g_object_set`). -/
abbrev Encoder := String → Nat

/-- The call `g_object_set (G_OBJECT (encoder), name, value, NULL)`. -/
def g_object_set (encoder : Encoder) (name : String) (value : Nat) : Encoder :=
  fun k => if k = name then value else encoder k

/-! ## Library functions on C strings -/

/-- Tokens of a non-empty string; `cur` is the token read so far.  Every
delimiter character ends the current token, the end of the string ends the
last one. -/
def splitAux (delimiters : List Char) : List Char → List Char → List (List Char)
  | [], cur => [cur]
  | c :: s, cur =>
    if c ∈ delimiters then cur :: splitAux delimiters s []
    else splitAux delimiters s (cur ++ [c])

/-- The call `g_strsplit_set (string, delimiters, -1)`: the tokens between
delimiter characters, empty tokens included; the empty string gives the empty
vector. -/
def g_strsplit_set (string : List Char) (delimiters : List Char) : List (List Char) :=
  if string = [] then [] else splitAux delimiters string []

/-- A slot `token[i]` of the NULL-terminated vector `g_strsplit_set` returns:
a string for `i` below the number of tokens, the NULL terminator at the number
of tokens, nothing allocated behind it. -/
inductive Slot
  | str (s : List Char)
  | null
  | beyond
  deriving DecidableEq, Repr

/-- Evaluation of `token[i]`. -/
def tokenAt (token : List (List Char)) (i : Nat) : Slot :=
  if h : i < token.length then Slot.str (token.get ⟨i, h⟩)
  else if i = token.length then Slot.null
  else Slot.beyond

/-- The call `g_strcmp0 (a, b) == 0` for a possibly NULL `a` and a literal `b`. -/
def g_strcmp0_eq (a : Slot) (b : List Char) : Bool :=
  match a with
  | Slot.str s => s == b
  | _ => false

/-- The function `isspace` of the C locale. -/
def isspace (c : Char) : Bool :=
  c == ' ' || c == '\t' || c == '\n' || c == '\x0b' || c == '\x0c' || c == '\r'

/-- Value of the longest run of decimal digits at the head of a string,
continuing from `acc`. -/
def digitRun : List Char → Nat → Nat
  | [], acc => acc
  | c :: s, acc =>
    if c.isDigit then digitRun s (acc * 10 + (c.toNat - '0'.toNat)) else acc

/-- The call `strtol (nptr, NULL, 10)` on a 64-bit `long`: white space, an
optional sign, the longest digit run; the result is clamped to the range of
`long`. -/
def strtol (nptr : List Char) : Int :=
  let s := nptr.dropWhile isspace
  let v : Int :=
    if s.head? = some '-' then - (digitRun s.tail 0 : Int)
    else if s.head? = some '+' then (digitRun s.tail 0 : Int)
    else (digitRun s 0 : Int)
  max (-(2 : Int) ^ 63) (min v ((2 : Int) ^ 63 - 1))

/-- Conversion of an integer to `int` (32 bits, two's complement). -/
def toInt32 (i : Int) : Int := (i + 2 ^ 31) % 2 ^ 32 - 2 ^ 31

/-- Conversion of an integer to `guint` (32 bits). -/
def toGuint (i : Int) : Nat := (i % 2 ^ 32).toNat

/-- The call `atoi (nptr)` for a non-NULL `nptr`, that is `(int) strtol (nptr,
NULL, 10)`.  ISO C leaves the result open when the value does not fit an
`int`; this is the result of the GNU C library. -/
def atoi (nptr : List Char) : Int := toInt32 (strtol nptr)

/-- The assignment `field = atoi (token[i])` to a `guint` field: the stored
value, or `none` when `token[i]` is NULL or behind the vector (undefined
behaviour). -/
def atoi_token (token : List (List Char)) (i : Nat) : Option Nat :=
  match tokenAt token i with
  | Slot.str s => some (toGuint (atoi s))
  | _ => none

/-! ## The parser -/

/-- The text of a string up to its first delimiter character: the first
token of a non-empty descriptor. -/
def firstToken (s : List Char) : List Char :=
  s.takeWhile (fun c => decide (c ∉ DYNAMIC_PARAM_DELIMIT))

/-- The function `get_dynamic_str_enum`; `none` is the `-1` of the source. -/
def get_dynamic_str_enum (user_string : Slot) : Option DynamicFeatureType :=
  if g_strcmp0_eq user_string DYNAMIC_BITRATE_STR then some DYNAMIC_BIT_RATE
  else if g_strcmp0_eq user_string DYNAMIC_GOP_LENGTH_STR then some DYNAMIC_GOP_LENGTH
  else if g_strcmp0_eq user_string DYNAMIC_KEY_FRAME_STR then some DYNAMIC_KEY_FRAME
  else if g_strcmp0_eq user_string DYNAMIC_B_FRAMES_STR then some DYNAMIC_B_FRAMES
  else if g_strcmp0_eq user_string DYNAMIC_ROI_STR then some DYNAMIC_ROI
  else if g_strcmp0_eq user_string DYNAMIC_SCENE_CHANGE_STR then some DYNAMIC_SCENE_CHANGE
  else if g_strcmp0_eq user_string DYNAMIC_INSERT_LONGTERM_STR then some DYNAMIC_INSERT_LONGTERM
  else if g_strcmp0_eq user_string DYNAMIC_USE_LONGTERM_STR then some DYNAMIC_USE_LONGTERM
  else none

/-- What a call of `parse_dynamic_user_string` returns. -/
inductive Outcome
  | ok (dynamic : DynamicFeature)
  | null
  | undefined
  deriving DecidableEq, Repr

/-- A run of `parse_dynamic_user_string`: the indices `i` of the slots
`token[i]` it evaluated, in order; the encoder properties when it ends; its
outcome. -/
structure ParseRun where
  reads : List Nat
  encoder : Encoder
  result : Outcome

/-- The body of the cases `DYNAMIC_BIT_RATE`, `DYNAMIC_GOP_LENGTH`,
`DYNAMIC_B_FRAMES` and of the case `DYNAMIC_SCENE_CHANGE`:
`start_frame = atoi (token[1]); param.value = atoi (token[2])`. -/
def parse_frame_value (type : DynamicFeatureType) (mem : DynamicFeature)
    (token : List (List Char)) (encoder : Encoder) : ParseRun :=
  match atoi_token token 1 with
  | none => ⟨[0, 1], encoder, Outcome.undefined⟩
  | some f =>
  match atoi_token token 2 with
  | none => ⟨[0, 1, 2], encoder, Outcome.undefined⟩
  | some v => ⟨[0, 1, 2], encoder, Outcome.ok ⟨type, f, mem.param.setValue v⟩⟩

/-- The body of the cases `DYNAMIC_KEY_FRAME`, `DYNAMIC_INSERT_LONGTERM` and
`DYNAMIC_USE_LONGTERM`: `start_frame = atoi (token[1])`. -/
def parse_frame (type : DynamicFeatureType) (mem : DynamicFeature)
    (token : List (List Char)) (encoder : Encoder) : ParseRun :=
  match atoi_token token 1 with
  | none => ⟨[0, 1], encoder, Outcome.undefined⟩
  | some f => ⟨[0, 1], encoder, Outcome.ok ⟨type, f, mem.param⟩⟩

/-- The body of the case `DYNAMIC_ROI`: five `atoi` fields, the copy
`g_strdup (token[6])` (NULL for a NULL `token[6]`), then the `g_object_set` of
`qp-mode`. -/
def parse_roi (OMX_ALG_ROI_QP : Nat) (token : List (List Char)) (encoder : Encoder) :
    ParseRun :=
  match atoi_token token 1 with
  | none => ⟨[0, 1], encoder, Outcome.undefined⟩
  | some f =>
  match atoi_token token 2 with
  | none => ⟨[0, 1, 2], encoder, Outcome.undefined⟩
  | some x =>
  match atoi_token token 3 with
  | none => ⟨[0, 1, 2, 3], encoder, Outcome.undefined⟩
  | some y =>
  match atoi_token token 4 with
  | none => ⟨[0, 1, 2, 3, 4], encoder, Outcome.undefined⟩
  | some w =>
  match atoi_token token 5 with
  | none => ⟨[0, 1, 2, 3, 4, 5], encoder, Outcome.undefined⟩
  | some h =>
  match tokenAt token 6 with
  | Slot.beyond => ⟨[0, 1, 2, 3, 4, 5, 6], encoder, Outcome.undefined⟩
  | Slot.null =>
    ⟨[0, 1, 2, 3, 4, 5, 6], g_object_set encoder "qp-mode" OMX_ALG_ROI_QP,
      Outcome.ok ⟨DYNAMIC_ROI, f, ⟨x, y, w, h, none⟩⟩⟩
  | Slot.str q =>
    ⟨[0, 1, 2, 3, 4, 5, 6], g_object_set encoder "qp-mode" OMX_ALG_ROI_QP,
      Outcome.ok ⟨DYNAMIC_ROI, f, ⟨x, y, w, h, some (String.mk q)⟩⟩⟩

/-- The function `parse_dynamic_user_string`.

`OMX_ALG_ROI_QP` is the enum constant of `OMX_VideoExt.h`, a header outside
the source tree.  `mem` is the content of the block `g_new` returns, which C
leaves indeterminate; the parser writes its fields over it. -/
def parse_dynamic_user_string (OMX_ALG_ROI_QP : Nat) (mem : DynamicFeature)
    (str : String) (encoder : Encoder) : ParseRun :=
  let token := g_strsplit_set str.data DYNAMIC_PARAM_DELIMIT
  match get_dynamic_str_enum (tokenAt token 0) with
  | some DYNAMIC_BIT_RATE => parse_frame_value DYNAMIC_BIT_RATE mem token encoder
  | some DYNAMIC_GOP_LENGTH => parse_frame_value DYNAMIC_GOP_LENGTH mem token encoder
  | some DYNAMIC_B_FRAMES => parse_frame_value DYNAMIC_B_FRAMES mem token encoder
  | some DYNAMIC_KEY_FRAME => parse_frame DYNAMIC_KEY_FRAME mem token encoder
  | some DYNAMIC_ROI => parse_roi OMX_ALG_ROI_QP token encoder
  | some DYNAMIC_SCENE_CHANGE => parse_frame_value DYNAMIC_SCENE_CHANGE mem token encoder
  | some DYNAMIC_INSERT_LONGTERM => parse_frame DYNAMIC_INSERT_LONGTERM mem token encoder
  | some DYNAMIC_USE_LONGTERM => parse_frame DYNAMIC_USE_LONGTERM mem token encoder
  | none => ⟨[0], encoder, Outcome.null⟩

/-! ## The pad probe -/

/-- A call the probe makes on its collaborators: a property set on the
encoder, a force-key-unit event pushed on the pad, a region-of-interest meta
(with its `roi/omx-alg` parameter structure) added to the buffer, a custom
downstream event sent to the peer pad. -/
inductive Call
  | set_property (name : String) (value : Nat)
  | push_force_key_unit (timestamp : Nat)
  | add_roi_meta (roi_type : String) (x y w h : Nat) (quality : Option String)
  | send_downstream_event (name : String) (fields : List (String × Nat))
  deriving DecidableEq, Repr

/-- A region-of-interest meta on a buffer, with the `quality` field of its
`roi/omx-alg` parameter. -/
structure RoiMeta where
  roi_type : String
  x : Nat
  y : Nat
  w : Nat
  h : Nat
  quality : Option String
  deriving DecidableEq, Repr

/-- A frame buffer: its presentation time stamp and its region metas. -/
structure Buffer where
  pts : Nat
  metas : List RoiMeta
  deriving DecidableEq, Repr

/-- What persists between calls of the probe: the static `framecount` (an
`int`), the encoder's properties, and the calls made so far, oldest first. -/
structure World where
  framecount : Int
  encoder : Encoder
  calls : List Call

/-- The body of `if (framecount == dynamic->start_frame)`: the switch on
`dynamic->type`. -/
def fire (dynamic : DynamicFeature) (w : World) (buffer : Buffer) : World × Buffer :=
  match dynamic.type with
  | DYNAMIC_BIT_RATE =>
    ({ w with
        encoder := g_object_set w.encoder "target-bitrate" dynamic.param.value
        calls := w.calls ++ [Call.set_property "target-bitrate" dynamic.param.value] },
      buffer)
  | DYNAMIC_GOP_LENGTH =>
    ({ w with
        encoder := g_object_set w.encoder "gop-length" dynamic.param.value
        calls := w.calls ++ [Call.set_property "gop-length" dynamic.param.value] },
      buffer)
  | DYNAMIC_B_FRAMES =>
    ({ w with
        encoder := g_object_set w.encoder "b-frames" dynamic.param.value
        calls := w.calls ++ [Call.set_property "b-frames" dynamic.param.value] },
      buffer)
  | DYNAMIC_KEY_FRAME =>
    ({ w with calls := w.calls ++ [Call.push_force_key_unit buffer.pts] }, buffer)
  | DYNAMIC_ROI =>
    ({ w with
        calls := w.calls ++ [Call.add_roi_meta "face" dynamic.param.x dynamic.param.y
          dynamic.param.width dynamic.param.height dynamic.param.quality] },
      { buffer with
        metas := buffer.metas ++ [⟨"face", dynamic.param.x, dynamic.param.y,
          dynamic.param.width, dynamic.param.height, dynamic.param.quality⟩] })
  | DYNAMIC_SCENE_CHANGE =>
    ({ w with
        calls := w.calls ++ [Call.send_downstream_event "omx-alg/scene-change"
          [("look-ahead", dynamic.param.value)]] },
      buffer)
  | DYNAMIC_INSERT_LONGTERM =>
    ({ w with calls := w.calls ++ [Call.send_downstream_event "omx-alg/insert-longterm" []] },
      buffer)
  | DYNAMIC_USE_LONGTERM =>
    ({ w with calls := w.calls ++ [Call.send_downstream_event "omx-alg/use-longterm" []] },
      buffer)

/-- The function `videoparser_src_buffer_probe`, for the global `dynamic`.
The comparison `framecount == dynamic->start_frame` is between an `int` and a
`guint`, so `framecount` is converted to `guint`.  `framecount++` on an `int`
wraps at `2 ^ 31` (two's complement; ISO C leaves the overflow undefined). -/
def videoparser_src_buffer_probe (dynamic : DynamicFeature) (w : World) (buffer : Buffer) :
    World × Buffer :=
  let r := if toGuint w.framecount = dynamic.start_frame then fire dynamic w buffer
    else (w, buffer)
  ({ r.1 with framecount := toInt32 (r.1.framecount + 1) }, r.2)

/-- The world before the call for frame index `i`, that is after `i` calls of
the probe, frame `j` arriving in buffer `buffers j`. -/
def worldAt (dynamic : DynamicFeature) (w0 : World) (buffers : Nat → Buffer) : Nat → World
  | 0 => w0
  | i + 1 =>
    (videoparser_src_buffer_probe dynamic (worldAt dynamic w0 buffers i) (buffers i)).1

/-- The calls made on the collaborators during the call for frame index `i`. -/
def callsAt (dynamic : DynamicFeature) (w0 : World) (buffers : Nat → Buffer) (i : Nat) :
    List Call :=
  (worldAt dynamic w0 buffers (i + 1)).calls.drop (worldAt dynamic w0 buffers i).calls.length

/-- The directive's effect is executed during the call for frame index `i`:
that call makes a call on a collaborator. -/
def executedAt (dynamic : DynamicFeature) (w0 : World) (buffers : Nat → Buffer) (i : Nat) :
    Bool :=
  !(callsAt dynamic w0 buffers i).isEmpty

/-- Number of calls of the probe, among the first `n`, that execute the
directive's effect. -/
def executions (dynamic : DynamicFeature) (w0 : World) (buffers : Nat → Buffer) (n : Nat) :
    Nat :=
  ((List.range n).filter (executedAt dynamic w0 buffers)).length

/-! ## The Executor of the specification -/

/-- The effect the specification's Executor table gives a directive, as the
calls made on the collaborators for the frame in `buffer`: a property set for
the three property kinds, a key-frame request at the buffer's time stamp, a
region annotation with the directive's rectangle and label, a downstream
message (with the look-ahead window for a scene change). -/
def executorCalls (directive : DynamicFeature) (buffer : Buffer) : List Call :=
  match directive.type with
  | DYNAMIC_BIT_RATE => [Call.set_property "target-bitrate" directive.param.value]
  | DYNAMIC_GOP_LENGTH => [Call.set_property "gop-length" directive.param.value]
  | DYNAMIC_B_FRAMES => [Call.set_property "b-frames" directive.param.value]
  | DYNAMIC_KEY_FRAME => [Call.push_force_key_unit buffer.pts]
  | DYNAMIC_ROI =>
    [Call.add_roi_meta "face" directive.param.x directive.param.y directive.param.width
      directive.param.height directive.param.quality]
  | DYNAMIC_SCENE_CHANGE =>
    [Call.send_downstream_event "omx-alg/scene-change"
      [("look-ahead", directive.param.value)]]
  | DYNAMIC_INSERT_LONGTERM => [Call.send_downstream_event "omx-alg/insert-longterm" []]
  | DYNAMIC_USE_LONGTERM => [Call.send_downstream_event "omx-alg/use-longterm" []]

/-- The encoder properties after the Executor of the specification has applied
a directive: one property set to the value for the three property kinds, no
change for the other five. -/
def executorEncoder (directive : DynamicFeature) (encoder : Encoder) : Encoder :=
  match directive.type with
  | DYNAMIC_BIT_RATE => g_object_set encoder "target-bitrate" directive.param.value
  | DYNAMIC_GOP_LENGTH => g_object_set encoder "gop-length" directive.param.value
  | DYNAMIC_B_FRAMES => g_object_set encoder "b-frames" directive.param.value
  | _ => encoder

/-- The frame buffer after the Executor of the specification has applied a
directive: the region annotation added for an ROI directive, no change for the
other seven kinds. -/
def executorBuffer (directive : DynamicFeature) (buffer : Buffer) : Buffer :=
  match directive.type with
  | DYNAMIC_ROI =>
    { buffer with
      metas := buffer.metas ++ [⟨"face", directive.param.x, directive.param.y,
        directive.param.width, directive.param.height, directive.param.quality⟩] }
  | _ => buffer

/-! ## Sample values -/

/-- A block of memory as `g_new` may return it. -/
def sampleMem : DynamicFeature := ⟨DYNAMIC_BIT_RATE, 0, ⟨0, 0, 0, 0, none⟩⟩

/-- The encoder as `main` sets it up from the `DEFAULT_ENCODER_*` macros:
`target-bitrate` 5000, `gop-length` 30, `control-rate` 2, every other property
0. -/
def sampleEncoder : Encoder := fun name =>
  if name = "target-bitrate" then 5000
  else if name = "gop-length" then 30
  else if name = "control-rate" then 2
  else 0

/-- A world at the first frame: `framecount` 0, no call made yet. -/
def sampleWorld : World := ⟨0, sampleEncoder, []⟩

/-- A stream of empty buffers, 33 time units apart. -/
def sampleBuffers : Nat → Buffer := fun i => ⟨33 * i, []⟩

/-- A key-frame directive for the first frame. -/
def sampleDirective : DynamicFeature := ⟨DYNAMIC_KEY_FRAME, 0, ⟨0, 0, 0, 0, none⟩⟩

/-! ## Splitting -/

theorem splitAux_free (ds : List Char) (t : List Char)
    (ht : ∀ c ∈ t, c ∉ ds) (rest cur : List Char) :
    splitAux ds (t ++ rest) cur = splitAux ds rest (cur ++ t) := by
  induction t generalizing cur with
  | nil => simp
  | cons a t ih =>
    have ha : a ∉ ds := ht a (List.mem_cons_self _ _)
    have ht2 : ∀ c ∈ t, c ∉ ds := fun c hc => ht c (List.mem_cons_of_mem _ hc)
    rw [List.cons_append, splitAux, if_neg ha, ih ht2]
    simp

theorem splitAux_token (ds : List Char) (t : List Char)
    (ht : ∀ c ∈ t, c ∉ ds) (d : Char) (hd : d ∈ ds)
    (rest cur : List Char) :
    splitAux ds (t ++ d :: rest) cur = (cur ++ t) :: splitAux ds rest [] := by
  rw [splitAux_free ds t ht, splitAux, if_pos hd]

theorem splitAux_head (ds : List Char) (s cur : List Char) :
    ∃ tl, splitAux ds s cur = (cur ++ s.takeWhile (fun c => decide (c ∉ ds))) :: tl := by
  induction s generalizing cur with
  | nil => exact ⟨[], by simp [splitAux]⟩
  | cons a s ih =>
    by_cases ha : a ∈ ds
    · exact ⟨splitAux ds s [], by simp [splitAux, ha, List.takeWhile]⟩
    · obtain ⟨tl, htl⟩ := ih (cur ++ [a])
      refine ⟨tl, ?_⟩
      simp [splitAux, ha, List.takeWhile, htl]

theorem tokenAt_zero (a : List Char) (l : List (List Char)) :
    tokenAt (a :: l) 0 = Slot.str a := by
  simp [tokenAt]

theorem tokenAt_succ (a : List Char) (l : List (List Char)) (i : Nat) :
    tokenAt (a :: l) (i + 1) = tokenAt l i := by
  simp [tokenAt]

theorem tokenAt_nil_zero : tokenAt [] 0 = Slot.null := by
  simp [tokenAt]

/-! ## Decimal numerals -/

theorem digitChar_isDigit (d : Nat) (hd : d < 10) :
    (Nat.digitChar d).isDigit = true ∧ (Nat.digitChar d).toNat - '0'.toNat = d := by
  interval_cases d <;> decide

theorem toDigitsCore_spec (fuel : Nat) : ∀ (n : Nat) (ds : List Char), n < fuel →
    ∃ p : List Char, Nat.toDigitsCore 10 fuel n ds = p ++ ds ∧ p ≠ [] ∧
      (∀ c ∈ p, c.isDigit = true) ∧ ∀ rest, digitRun (p ++ rest) 0 = digitRun rest n := by
  induction fuel with
  | zero => intro n ds h; omega
  | succ fuel ih =>
    intro n ds hn
    have hd := digitChar_isDigit (n % 10) (Nat.mod_lt _ (by decide))
    by_cases h0 : n / 10 = 0
    · refine ⟨[Nat.digitChar (n % 10)], by simp [Nat.toDigitsCore, h0], by simp, ?_, ?_⟩
      · intro c hc
        rw [List.mem_singleton] at hc
        rw [hc]; exact hd.1
      · intro rest
        have hn10 : 0 * 10 + n % 10 = n := by omega
        simp only [List.singleton_append, digitRun, hd.1, hd.2, if_true, hn10]
        rfl
    · obtain ⟨p, hp, hne, hdig, hval⟩ := ih (n / 10) (Nat.digitChar (n % 10) :: ds) (by omega)
      refine ⟨p ++ [Nat.digitChar (n % 10)], by simp [Nat.toDigitsCore, h0, hp], by simp, ?_, ?_⟩
      · intro c hc
        rw [List.mem_append, List.mem_singleton] at hc
        rcases hc with hc | hc
        · exact hdig c hc
        · rw [hc]; exact hd.1
      · intro rest
        rw [List.append_assoc, hval]
        have hn10 : n / 10 * 10 + n % 10 = n := by omega
        simp only [List.singleton_append, digitRun, hd.1, hd.2, if_true, hn10]
        rfl

/-- The decimal numeral of `n`, as `toString` writes it. -/
theorem repr_data (n : Nat) : (toString n).data = Nat.toDigits 10 n := rfl

theorem toDigits_spec (n : Nat) :
    Nat.toDigits 10 n ≠ [] ∧ (∀ c ∈ Nat.toDigits 10 n, c.isDigit = true) ∧
      ∀ rest, digitRun (Nat.toDigits 10 n ++ rest) 0 = digitRun rest n := by
  obtain ⟨p, hp, hne, hdig, hval⟩ := toDigitsCore_spec (n + 1) n [] (by omega)
  have : Nat.toDigits 10 n = p := by simpa [Nat.toDigits] using hp
  rw [this]
  exact ⟨hne, hdig, hval⟩

theorem delimit_eq : DYNAMIC_PARAM_DELIMIT = [':', 'x'] := rfl

theorem isDigit_not_delim (c : Char) (h : c.isDigit = true) : c ∉ DYNAMIC_PARAM_DELIMIT := by
  rw [delimit_eq]
  intro hc
  simp only [List.mem_cons, List.mem_singleton, List.not_mem_nil, or_false] at hc
  rcases hc with rfl | rfl <;> exact absurd h (by decide)

theorem isDigit_not_space (c : Char) (h : c.isDigit = true) : isspace c = false := by
  by_contra hs
  simp only [isspace, Bool.not_eq_false, Bool.or_eq_true, beq_iff_eq] at hs
  rcases hs with ((((rfl | rfl) | rfl) | rfl) | rfl) | rfl <;> exact absurd h (by decide)

theorem digitRun_stop (rest : List Char) (n : Nat)
    (h : ∀ c, rest.head? = some c → c.isDigit = false) : digitRun rest n = n := by
  cases rest with
  | nil => rfl
  | cons c r => simp [digitRun, h c rfl]

theorem toInt32_small (n : Nat) (h : n < 2 ^ 31) :
    toGuint (toInt32 (max (-(2 : Int) ^ 63) (min (n : Int) ((2 : Int) ^ 63 - 1)))) = n := by
  have h1 : min (n : Int) ((2 : Int) ^ 63 - 1) = n := by
    apply min_eq_left; norm_num at h ⊢; omega
  have h2 : max (-(2 : Int) ^ 63) (n : Int) = n := by
    apply max_eq_right; norm_num; omega
  rw [h1, h2]
  unfold toGuint toInt32
  norm_num at h ⊢
  omega

/-- The value `atoi` reads from a string that starts with a digit. -/
theorem strtol_digit_head (c : Char) (t : List Char) (h : c.isDigit = true) :
    strtol (c :: t) = max (-(2 : Int) ^ 63) (min (digitRun (c :: t) 0 : Int) ((2 : Int) ^ 63 - 1)) := by
  have hs := isDigit_not_space c h
  have h1 : c ≠ '-' := by rintro rfl; exact absurd h (by decide)
  have h2 : c ≠ '+' := by rintro rfl; exact absurd h (by decide)
  simp [strtol, List.dropWhile, hs, h1, h2]

/-- Reading back a decimal numeral below `2 ^ 31` that a non-digit follows. -/
theorem atoi_numeral (n : Nat) (hn : n < 2 ^ 31) (rest : List Char)
    (h : ∀ c, rest.head? = some c → c.isDigit = false) :
    toGuint (atoi (Nat.toDigits 10 n ++ rest)) = n := by
  obtain ⟨hne, hdig, hval⟩ := toDigits_spec n
  cases hp : Nat.toDigits 10 n with
  | nil => exact absurd hp hne
  | cons c t =>
    have hc : c.isDigit = true := hdig c (by rw [hp]; exact List.mem_cons_self _ _)
    have hv := hval rest
    rw [hp] at hv
    rw [atoi, List.cons_append, strtol_digit_head c _ hc, ← List.cons_append, hv,
      digitRun_stop rest n h]
    exact toInt32_small n hn

theorem atoi_numeral_nil (n : Nat) (hn : n < 2 ^ 31) :
    toGuint (atoi (Nat.toDigits 10 n)) = n := by
  have := atoi_numeral n hn [] (by simp)
  simpa using this

theorem toDigits_delimFree (n : Nat) : ∀ c ∈ Nat.toDigits 10 n, c ∉ DYNAMIC_PARAM_DELIMIT :=
  fun c hc => isDigit_not_delim c ((toDigits_spec n).2.1 c hc)

/-! ## The parser on a split descriptor -/

theorem split_two_more (t0 t1 s : List Char) (h0 : ∀ c ∈ t0, c ∉ DYNAMIC_PARAM_DELIMIT)
    (h1 : ∀ c ∈ t1, c ∉ DYNAMIC_PARAM_DELIMIT) :
    ∃ tl, g_strsplit_set (t0 ++ ':' :: (t1 ++ s)) DYNAMIC_PARAM_DELIMIT =
      t0 :: (t1 ++ firstToken s) :: tl := by
  have hc : ':' ∈ DYNAMIC_PARAM_DELIMIT := by decide
  obtain ⟨tl, htl⟩ := splitAux_head DYNAMIC_PARAM_DELIMIT s ([] ++ t1)
  refine ⟨tl, ?_⟩
  rw [g_strsplit_set, if_neg (by simp), splitAux_token _ t0 h0 _ hc, splitAux_free _ t1 h1, htl]
  simp [firstToken]

theorem split_three_more (t0 t1 t2 s : List Char) (h0 : ∀ c ∈ t0, c ∉ DYNAMIC_PARAM_DELIMIT)
    (h1 : ∀ c ∈ t1, c ∉ DYNAMIC_PARAM_DELIMIT) (h2 : ∀ c ∈ t2, c ∉ DYNAMIC_PARAM_DELIMIT) :
    ∃ tl, g_strsplit_set (t0 ++ ':' :: (t1 ++ ':' :: (t2 ++ s))) DYNAMIC_PARAM_DELIMIT =
      t0 :: t1 :: (t2 ++ firstToken s) :: tl := by
  have hc : ':' ∈ DYNAMIC_PARAM_DELIMIT := by decide
  obtain ⟨tl, htl⟩ := splitAux_head DYNAMIC_PARAM_DELIMIT s ([] ++ t2)
  refine ⟨tl, ?_⟩
  rw [g_strsplit_set, if_neg (by simp), splitAux_token _ t0 h0 _ hc,
    splitAux_token _ t1 h1 _ hc, splitAux_free _ t2 h2, htl]
  simp [firstToken]

theorem split_seven_more (t0 t1 t2 t3 t4 t5 t6 s : List Char)
    (h0 : ∀ c ∈ t0, c ∉ DYNAMIC_PARAM_DELIMIT) (h1 : ∀ c ∈ t1, c ∉ DYNAMIC_PARAM_DELIMIT)
    (h2 : ∀ c ∈ t2, c ∉ DYNAMIC_PARAM_DELIMIT) (h3 : ∀ c ∈ t3, c ∉ DYNAMIC_PARAM_DELIMIT)
    (h4 : ∀ c ∈ t4, c ∉ DYNAMIC_PARAM_DELIMIT) (h5 : ∀ c ∈ t5, c ∉ DYNAMIC_PARAM_DELIMIT)
    (h6 : ∀ c ∈ t6, c ∉ DYNAMIC_PARAM_DELIMIT) :
    ∃ tl, g_strsplit_set (t0 ++ ':' :: (t1 ++ ':' :: (t2 ++ 'x' :: (t3 ++ ':' :: (t4 ++ 'x' ::
        (t5 ++ ':' :: (t6 ++ s))))))) DYNAMIC_PARAM_DELIMIT =
      t0 :: t1 :: t2 :: t3 :: t4 :: t5 :: (t6 ++ firstToken s) :: tl := by
  have hc : ':' ∈ DYNAMIC_PARAM_DELIMIT := by decide
  have hx : 'x' ∈ DYNAMIC_PARAM_DELIMIT := by decide
  obtain ⟨tl, htl⟩ := splitAux_head DYNAMIC_PARAM_DELIMIT s ([] ++ t6)
  refine ⟨tl, ?_⟩
  rw [g_strsplit_set, if_neg (by simp), splitAux_token _ t0 h0 _ hc,
    splitAux_token _ t1 h1 _ hc, splitAux_token _ t2 h2 _ hx, splitAux_token _ t3 h3 _ hc,
    splitAux_token _ t4 h4 _ hx, splitAux_token _ t5 h5 _ hc, splitAux_free _ t6 h6, htl]
  simp [firstToken]

theorem parse_frame_value_tokens (type : DynamicFeatureType) (mem : DynamicFeature)
    (t0 t1 t2 : List Char) (tl : List (List Char)) (encoder : Encoder) :
    parse_frame_value type mem (t0 :: t1 :: t2 :: tl) encoder =
      ⟨[0, 1, 2], encoder,
        Outcome.ok ⟨type, toGuint (atoi t1), mem.param.setValue (toGuint (atoi t2))⟩⟩ := by
  simp [parse_frame_value, atoi_token, tokenAt_zero, tokenAt_succ]

theorem parse_frame_tokens (type : DynamicFeatureType) (mem : DynamicFeature)
    (t0 t1 : List Char) (tl : List (List Char)) (encoder : Encoder) :
    parse_frame type mem (t0 :: t1 :: tl) encoder =
      ⟨[0, 1], encoder, Outcome.ok ⟨type, toGuint (atoi t1), mem.param⟩⟩ := by
  simp [parse_frame, atoi_token, tokenAt_zero, tokenAt_succ]

theorem parse_roi_tokens (qp : Nat) (t0 t1 t2 t3 t4 t5 t6 : List Char)
    (tl : List (List Char)) (encoder : Encoder) :
    parse_roi qp (t0 :: t1 :: t2 :: t3 :: t4 :: t5 :: t6 :: tl) encoder =
      ⟨[0, 1, 2, 3, 4, 5, 6], g_object_set encoder "qp-mode" qp,
        Outcome.ok ⟨DYNAMIC_ROI, toGuint (atoi t1), ⟨toGuint (atoi t2), toGuint (atoi t3),
          toGuint (atoi t4), toGuint (atoi t5), some (String.mk t6)⟩⟩⟩ := by
  simp [parse_roi, atoi_token, tokenAt_zero, tokenAt_succ]

theorem parse_of_split (qp : Nat) (mem : DynamicFeature) (str : String) (encoder : Encoder)
    (t0 : List Char) (tl : List (List Char))
    (h : g_strsplit_set str.data DYNAMIC_PARAM_DELIMIT = t0 :: tl) :
    parse_dynamic_user_string qp mem str encoder =
      match get_dynamic_str_enum (Slot.str t0) with
      | some DYNAMIC_BIT_RATE => parse_frame_value DYNAMIC_BIT_RATE mem (t0 :: tl) encoder
      | some DYNAMIC_GOP_LENGTH => parse_frame_value DYNAMIC_GOP_LENGTH mem (t0 :: tl) encoder
      | some DYNAMIC_B_FRAMES => parse_frame_value DYNAMIC_B_FRAMES mem (t0 :: tl) encoder
      | some DYNAMIC_KEY_FRAME => parse_frame DYNAMIC_KEY_FRAME mem (t0 :: tl) encoder
      | some DYNAMIC_ROI => parse_roi qp (t0 :: tl) encoder
      | some DYNAMIC_SCENE_CHANGE => parse_frame_value DYNAMIC_SCENE_CHANGE mem (t0 :: tl) encoder
      | some DYNAMIC_INSERT_LONGTERM => parse_frame DYNAMIC_INSERT_LONGTERM mem (t0 :: tl) encoder
      | some DYNAMIC_USE_LONGTERM => parse_frame DYNAMIC_USE_LONGTERM mem (t0 :: tl) encoder
      | none => ⟨[0], encoder, Outcome.null⟩ := by
  simp only [parse_dynamic_user_string, h, tokenAt_zero]

/-- A descriptor `K:t1:t2` of a kind with a value, possibly with text `s`
behind its last field. -/
theorem parse_scalar_string (qp : Nat) (mem : DynamicFeature) (str : String)
    (encoder : Encoder) (kind : DynamicFeatureType) (t0 t1 t2 s : List Char)
    (hstr : str.data = t0 ++ ':' :: (t1 ++ ':' :: (t2 ++ s)))
    (hK : get_dynamic_str_enum (Slot.str t0) = some kind)
    (hkind : kind = DYNAMIC_BIT_RATE ∨ kind = DYNAMIC_GOP_LENGTH ∨ kind = DYNAMIC_B_FRAMES ∨
      kind = DYNAMIC_SCENE_CHANGE)
    (h0 : ∀ c ∈ t0, c ∉ DYNAMIC_PARAM_DELIMIT) (h1 : ∀ c ∈ t1, c ∉ DYNAMIC_PARAM_DELIMIT)
    (h2 : ∀ c ∈ t2, c ∉ DYNAMIC_PARAM_DELIMIT) :
    parse_dynamic_user_string qp mem str encoder =
      ⟨[0, 1, 2], encoder, Outcome.ok ⟨kind, toGuint (atoi t1),
        mem.param.setValue (toGuint (atoi (t2 ++ firstToken s)))⟩⟩ := by
  obtain ⟨tl, hs⟩ := split_three_more t0 t1 t2 s h0 h1 h2
  rw [← hstr] at hs
  rw [parse_of_split qp mem str encoder _ _ hs, hK]
  rcases hkind with rfl | rfl | rfl | rfl <;> exact parse_frame_value_tokens _ _ _ _ _ _ _

/-- A descriptor `K:t1` of a kind without a value, possibly with text `s`
behind its last field. -/
theorem parse_frame_string (qp : Nat) (mem : DynamicFeature) (str : String)
    (encoder : Encoder) (kind : DynamicFeatureType) (t0 t1 s : List Char)
    (hstr : str.data = t0 ++ ':' :: (t1 ++ s))
    (hK : get_dynamic_str_enum (Slot.str t0) = some kind)
    (hkind : kind = DYNAMIC_KEY_FRAME ∨ kind = DYNAMIC_INSERT_LONGTERM ∨
      kind = DYNAMIC_USE_LONGTERM)
    (h0 : ∀ c ∈ t0, c ∉ DYNAMIC_PARAM_DELIMIT) (h1 : ∀ c ∈ t1, c ∉ DYNAMIC_PARAM_DELIMIT) :
    parse_dynamic_user_string qp mem str encoder =
      ⟨[0, 1], encoder, Outcome.ok ⟨kind, toGuint (atoi (t1 ++ firstToken s)), mem.param⟩⟩ := by
  obtain ⟨tl, hs⟩ := split_two_more t0 t1 s h0 h1
  rw [← hstr] at hs
  rw [parse_of_split qp mem str encoder _ _ hs, hK]
  rcases hkind with rfl | rfl | rfl <;> exact parse_frame_tokens _ _ _ _ _ _

/-- An ROI descriptor, possibly with text `s` behind its last field. -/
theorem parse_roi_string (qp : Nat) (mem : DynamicFeature) (str : String) (encoder : Encoder)
    (t1 t2 t3 t4 t5 t6 s : List Char)
    (hstr : str.data = "ROI".data ++ ':' :: (t1 ++ ':' :: (t2 ++ 'x' :: (t3 ++ ':' ::
      (t4 ++ 'x' :: (t5 ++ ':' :: (t6 ++ s)))))))
    (h1 : ∀ c ∈ t1, c ∉ DYNAMIC_PARAM_DELIMIT)
    (h2 : ∀ c ∈ t2, c ∉ DYNAMIC_PARAM_DELIMIT) (h3 : ∀ c ∈ t3, c ∉ DYNAMIC_PARAM_DELIMIT)
    (h4 : ∀ c ∈ t4, c ∉ DYNAMIC_PARAM_DELIMIT) (h5 : ∀ c ∈ t5, c ∉ DYNAMIC_PARAM_DELIMIT)
    (h6 : ∀ c ∈ t6, c ∉ DYNAMIC_PARAM_DELIMIT) :
    parse_dynamic_user_string qp mem str encoder =
      ⟨[0, 1, 2, 3, 4, 5, 6], g_object_set encoder "qp-mode" qp,
        Outcome.ok ⟨DYNAMIC_ROI, toGuint (atoi t1), ⟨toGuint (atoi t2), toGuint (atoi t3),
          toGuint (atoi t4), toGuint (atoi t5), some (String.mk (t6 ++ firstToken s))⟩⟩⟩ := by
  obtain ⟨tl, hs⟩ := split_seven_more "ROI".data t1 t2 t3 t4 t5 t6 s (by decide) h1 h2 h3 h4 h5 h6
  rw [← hstr] at hs
  rw [parse_of_split qp mem str encoder _ _ hs]
  have hk : get_dynamic_str_enum (Slot.str "ROI".data) = some DYNAMIC_ROI := by decide
  rw [hk]
  exact parse_roi_tokens _ _ _ _ _ _ _ _ _ _

theorem firstToken_nil : firstToken [] = [] := rfl

theorem firstToken_comma (s : List Char) : firstToken (',' :: s) = ',' :: firstToken s := by
  simp [firstToken, List.takeWhile, delimit_eq]

theorem delimFree_of_ne (q : String) (hq : ∀ c ∈ q.data, c ≠ ':' ∧ c ≠ 'x') :
    ∀ c ∈ q.data, c ∉ DYNAMIC_PARAM_DELIMIT := by
  intro c hc
  rw [delimit_eq]
  simp [hq c hc]

/-! ## Properties of the parser -/

/-- Descriptors `K:f:v` and `K:f` with decimal numerals below `2 ^ 31`: the
directive the parser returns. -/
theorem parse_scalar_and_frame_descriptors_aux (f v : Nat) (hf : f < 2 ^ 31) (hv : v < 2 ^ 31)
    (qp : Nat) (mem : DynamicFeature) (encoder : Encoder) :
    (∀ K kind, (K, kind) ∈ [("BR", DYNAMIC_BIT_RATE), ("GL", DYNAMIC_GOP_LENGTH),
        ("BFrm", DYNAMIC_B_FRAMES), ("SC", DYNAMIC_SCENE_CHANGE)] →
      (parse_dynamic_user_string qp mem (K ++ ":" ++ toString f ++ ":" ++ toString v)
          encoder).result = Outcome.ok ⟨kind, f, mem.param.setValue v⟩) ∧
    (∀ K kind, (K, kind) ∈ [("KF", DYNAMIC_KEY_FRAME), ("IL", DYNAMIC_INSERT_LONGTERM),
        ("UL", DYNAMIC_USE_LONGTERM)] →
      (parse_dynamic_user_string qp mem (K ++ ":" ++ toString f) encoder).result =
        Outcome.ok ⟨kind, f, mem.param⟩) := by
  have hF := toDigits_delimFree f
  have hV := toDigits_delimFree v
  have af := atoi_numeral_nil f hf
  have av := atoi_numeral_nil v hv
  constructor
  · intro K kind hK
    have hdata : (K ++ ":" ++ toString f ++ ":" ++ toString v).data =
        K.data ++ ':' :: (Nat.toDigits 10 f ++ ':' :: (Nat.toDigits 10 v ++ [])) := by
      simp only [String.data_append, repr_data, List.append_assoc, List.append_nil]
      rfl
    have hp := fun hk hkind h0 =>
      parse_scalar_string qp mem _ encoder kind K.data _ _ _ hdata hk hkind h0 hF hV
    simp only [List.mem_cons, Prod.mk.injEq, List.mem_singleton, List.not_mem_nil, or_false] at hK
    rcases hK with ⟨rfl, rfl⟩ | ⟨rfl, rfl⟩ | ⟨rfl, rfl⟩ | ⟨rfl, rfl⟩ <;>
      rw [hp (by decide) (by decide) (by decide), firstToken_nil, List.append_nil, af, av]
  · intro K kind hK
    have hdata : (K ++ ":" ++ toString f).data = K.data ++ ':' :: (Nat.toDigits 10 f ++ []) := by
      simp only [String.data_append, repr_data, List.append_assoc, List.append_nil]
      rfl
    have hp := fun hk hkind h0 =>
      parse_frame_string qp mem _ encoder kind K.data _ _ hdata hk hkind h0 hF
    simp only [List.mem_cons, Prod.mk.injEq, List.mem_singleton, List.not_mem_nil, or_false] at hK
    rcases hK with ⟨rfl, rfl⟩ | ⟨rfl, rfl⟩ | ⟨rfl, rfl⟩ <;>
      rw [hp (by decide) (by decide) (by decide), firstToken_nil, List.append_nil, af]

/-- C1: a descriptor `K:f:v` of a kind with a value (BR, GL, BFrm, SC) parses
to a directive of that kind with `start_frame = f` and `value = v`, and a
descriptor `K:f` of a kind without a value (KF, IL, UL) to a directive of that
kind with `start_frame = f`, for all `f`, `v` below `2 ^ 31` written in
decimal. -/
theorem parse_scalar_and_frame_descriptors (f v : Nat) (hf : f < 2 ^ 31) (hv : v < 2 ^ 31)
    (qp : Nat) (mem : DynamicFeature) (encoder : Encoder) :
    (∀ K kind, (K, kind) ∈ [("BR", DYNAMIC_BIT_RATE), ("GL", DYNAMIC_GOP_LENGTH),
        ("BFrm", DYNAMIC_B_FRAMES), ("SC", DYNAMIC_SCENE_CHANGE)] →
      ∃ d, (parse_dynamic_user_string qp mem (K ++ ":" ++ toString f ++ ":" ++ toString v)
          encoder).result = Outcome.ok d ∧
        d.type = kind ∧ d.start_frame = f ∧ d.param.value = v) ∧
    (∀ K kind, (K, kind) ∈ [("KF", DYNAMIC_KEY_FRAME), ("IL", DYNAMIC_INSERT_LONGTERM),
        ("UL", DYNAMIC_USE_LONGTERM)] →
      ∃ d, (parse_dynamic_user_string qp mem (K ++ ":" ++ toString f) encoder).result =
          Outcome.ok d ∧
        d.type = kind ∧ d.start_frame = f) := by
  have h := parse_scalar_and_frame_descriptors_aux f v hf hv qp mem encoder
  exact ⟨fun K kind hK => ⟨_, h.1 K kind hK, rfl, rfl, rfl⟩,
    fun K kind hK => ⟨_, h.2 K kind hK, rfl, rfl⟩⟩

/-- C1 at `BR:100:1000`: kind `DYNAMIC_BIT_RATE`, start frame 100, value 1000. -/
theorem parse_scalar_and_frame_descriptors_witness :
    (100 < 2 ^ 31 ∧ 1000 < 2 ^ 31) ∧
    ∃ d, (parse_dynamic_user_string 1 sampleMem ("BR" ++ ":" ++ toString 100 ++ ":" ++
        toString 1000) sampleEncoder).result = Outcome.ok d ∧
      d.type = DYNAMIC_BIT_RATE ∧ d.start_frame = 100 ∧ d.param.value = 1000 :=
  ⟨⟨by decide, by decide⟩,
    (parse_scalar_and_frame_descriptors 100 1000 (by decide) (by decide) 1 sampleMem
      sampleEncoder).1 "BR" DYNAMIC_BIT_RATE (by simp)⟩

/-- An ROI descriptor with decimal numerals below `2 ^ 31` and a label free of
delimiters: the directive the parser returns. -/
theorem parse_roi_descriptor_aux (f X Y W H : Nat) (q : String)
    (hf : f < 2 ^ 31) (hX : X < 2 ^ 31) (hY : Y < 2 ^ 31) (hW : W < 2 ^ 31) (hH : H < 2 ^ 31)
    (hq : ∀ c ∈ q.data, c ≠ ':' ∧ c ≠ 'x')
    (qp : Nat) (mem : DynamicFeature) (encoder : Encoder) :
    (parse_dynamic_user_string qp mem
        ("ROI:" ++ toString f ++ ":" ++ toString X ++ "x" ++ toString Y ++ ":" ++
          toString W ++ "x" ++ toString H ++ ":" ++ q) encoder).result =
      Outcome.ok ⟨DYNAMIC_ROI, f, ⟨X, Y, W, H, some q⟩⟩ := by
  have hdata : ("ROI:" ++ toString f ++ ":" ++ toString X ++ "x" ++ toString Y ++ ":" ++
      toString W ++ "x" ++ toString H ++ ":" ++ q).data =
      "ROI".data ++ ':' :: (Nat.toDigits 10 f ++ ':' :: (Nat.toDigits 10 X ++ 'x' ::
        (Nat.toDigits 10 Y ++ ':' :: (Nat.toDigits 10 W ++ 'x' :: (Nat.toDigits 10 H ++ ':' ::
          (q.data ++ [])))))) := by
    simp only [String.data_append, repr_data, List.append_assoc, List.append_nil]
    rfl
  rw [parse_roi_string qp mem _ encoder _ _ _ _ _ _ [] hdata (toDigits_delimFree f)
    (toDigits_delimFree X) (toDigits_delimFree Y) (toDigits_delimFree W)
    (toDigits_delimFree H) (delimFree_of_ne q hq)]
  rw [atoi_numeral_nil f hf, atoi_numeral_nil X hX, atoi_numeral_nil Y hY,
    atoi_numeral_nil W hW, atoi_numeral_nil H hH]
  simp [firstToken]

/-- C2, as amended: a descriptor `ROI:f:XxY:WxH:q`, with `f`, `X`, `Y`, `W`,
`H` below `2 ^ 31` written in decimal and a label `q` that contains neither of
the delimiter characters `:` and `x`, parses to an ROI directive with those
five numbers and the whole label `q`. -/
theorem parse_roi_descriptor (f X Y W H : Nat) (q : String)
    (hf : f < 2 ^ 31) (hX : X < 2 ^ 31) (hY : Y < 2 ^ 31) (hW : W < 2 ^ 31) (hH : H < 2 ^ 31)
    (hq : ∀ c ∈ q.data, c ≠ ':' ∧ c ≠ 'x')
    (qp : Nat) (mem : DynamicFeature) (encoder : Encoder) :
    (parse_dynamic_user_string qp mem
        ("ROI:" ++ toString f ++ ":" ++ toString X ++ "x" ++ toString Y ++ ":" ++
          toString W ++ "x" ++ toString H ++ ":" ++ q) encoder).result =
      Outcome.ok ⟨DYNAMIC_ROI, f, ⟨X, Y, W, H, some q⟩⟩ :=
  parse_roi_descriptor_aux f X Y W H q hf hX hY hW hH hq qp mem encoder

/-- C2 as amended, at `ROI:10:50x60:40x40:high`. -/
theorem parse_roi_descriptor_witness :
    (parse_dynamic_user_string 1 sampleMem
        ("ROI:" ++ toString 10 ++ ":" ++ toString 50 ++ "x" ++ toString 60 ++ ":" ++
          toString 40 ++ "x" ++ toString 40 ++ ":" ++ "high") sampleEncoder).result =
      Outcome.ok ⟨DYNAMIC_ROI, 10, ⟨50, 60, 40, 40, some "high"⟩⟩ :=
  parse_roi_descriptor 10 50 60 40 40 "high" (by decide) (by decide) (by decide) (by decide)
    (by decide) (by decide) 1 sampleMem sampleEncoder

/-- C2 fails for a label with an `x`: `ROI:10:50x60:40x40:max` has the label
`max`, which contains neither `:` nor `,`, and the parser stores `ma`. -/
theorem parse_roi_label_cut_at_x :
    (parse_dynamic_user_string 1 sampleMem "ROI:10:50x60:40x40:max" sampleEncoder).result =
      Outcome.ok ⟨DYNAMIC_ROI, 10, ⟨50, 60, 40, 40, some "ma"⟩⟩ ∧
    (∀ c ∈ "max".data, c ≠ ':' ∧ c ≠ ',') ∧ "ma" ≠ "max" := by
  refine ⟨by decide, by decide, by decide⟩

/-- The eight mnemonics of the source. -/
theorem enum_none_of_unknown (t : List Char)
    (h : t ∉ [DYNAMIC_BITRATE_STR, DYNAMIC_GOP_LENGTH_STR, DYNAMIC_B_FRAMES_STR,
      DYNAMIC_KEY_FRAME_STR, DYNAMIC_ROI_STR, DYNAMIC_SCENE_CHANGE_STR,
      DYNAMIC_INSERT_LONGTERM_STR, DYNAMIC_USE_LONGTERM_STR]) :
    get_dynamic_str_enum (Slot.str t) = none := by
  simp only [List.mem_cons, List.mem_singleton, List.not_mem_nil, or_false, not_or] at h
  obtain ⟨h1, h2, h3, h4, h5, h6, h7, h8⟩ := h
  simp [get_dynamic_str_enum, g_strcmp0_eq, h1, h2, h3, h4, h5, h6, h7, h8]

/-- C3: a descriptor whose first token is none of the eight mnemonics (the empty
descriptor included) makes the parser return NULL after evaluating `token[0]`
only, the encoder untouched. -/
theorem parse_unknown_kind (qp : Nat) (mem : DynamicFeature) (str : String) (encoder : Encoder)
    (h : firstToken str.data ∉ [DYNAMIC_BITRATE_STR, DYNAMIC_GOP_LENGTH_STR,
      DYNAMIC_B_FRAMES_STR, DYNAMIC_KEY_FRAME_STR, DYNAMIC_ROI_STR, DYNAMIC_SCENE_CHANGE_STR,
      DYNAMIC_INSERT_LONGTERM_STR, DYNAMIC_USE_LONGTERM_STR]) :
    (parse_dynamic_user_string qp mem str encoder).result = Outcome.null ∧
    (parse_dynamic_user_string qp mem str encoder).reads = [0] ∧
    (parse_dynamic_user_string qp mem str encoder).encoder = encoder := by
  by_cases he : str.data = []
  · have hs : g_strsplit_set str.data DYNAMIC_PARAM_DELIMIT = [] := by simp [g_strsplit_set, he]
    have hn : get_dynamic_str_enum Slot.null = none := by decide
    simp [parse_dynamic_user_string, hs, tokenAt_nil_zero, hn]
  · obtain ⟨tl, htl⟩ := splitAux_head DYNAMIC_PARAM_DELIMIT str.data []
    have hs : g_strsplit_set str.data DYNAMIC_PARAM_DELIMIT = firstToken str.data :: tl := by
      rw [g_strsplit_set, if_neg he, htl]; simp [firstToken]
    rw [parse_of_split qp mem str encoder _ _ hs, enum_none_of_unknown _ h]
    exact ⟨rfl, rfl, rfl⟩

/-- C3 at `XX:5:1`, at `br:100:1000` and at the empty descriptor. -/
theorem parse_unknown_kind_witness :
    ((parse_dynamic_user_string 1 sampleMem "XX:5:1" sampleEncoder).result = Outcome.null ∧
      (parse_dynamic_user_string 1 sampleMem "XX:5:1" sampleEncoder).reads = [0] ∧
      (parse_dynamic_user_string 1 sampleMem "XX:5:1" sampleEncoder).encoder = sampleEncoder) ∧
    (parse_dynamic_user_string 1 sampleMem "br:100:1000" sampleEncoder).result = Outcome.null ∧
    (parse_dynamic_user_string 1 sampleMem "" sampleEncoder).result = Outcome.null :=
  ⟨parse_unknown_kind 1 sampleMem "XX:5:1" sampleEncoder (by decide),
    (parse_unknown_kind 1 sampleMem "br:100:1000" sampleEncoder (by decide)).1,
    (parse_unknown_kind 1 sampleMem "" sampleEncoder (by decide)).1⟩

/-- C4 on the code: `BR:100` splits into two tokens and the parser evaluates
`atoi (token[2])`, the NULL terminator; `ROI:1200:300` splits into three and
the parser evaluates `atoi (token[3])`.  Neither call returns NULL to report a
malformed descriptor: the behaviour is undefined.  The ROI example of the
program's own usage text, `ROI:1200x300:200x200:high`, has six tokens; the
parser reads `token[6]`, the terminator, and returns a directive with a NULL
label and height 0. -/
theorem parse_short_descriptor_reads_terminator (qp : Nat) (mem : DynamicFeature)
    (encoder : Encoder) :
    ((g_strsplit_set "BR:100".data DYNAMIC_PARAM_DELIMIT).length = 2 ∧
      (parse_dynamic_user_string qp mem "BR:100" encoder).reads = [0, 1, 2] ∧
      (parse_dynamic_user_string qp mem "BR:100" encoder).result = Outcome.undefined) ∧
    ((g_strsplit_set "ROI:1200:300".data DYNAMIC_PARAM_DELIMIT).length = 3 ∧
      (parse_dynamic_user_string qp mem "ROI:1200:300" encoder).reads = [0, 1, 2, 3] ∧
      (parse_dynamic_user_string qp mem "ROI:1200:300" encoder).result = Outcome.undefined) ∧
    ((g_strsplit_set "ROI:1200x300:200x200:high".data DYNAMIC_PARAM_DELIMIT).length = 6 ∧
      (parse_dynamic_user_string qp mem "ROI:1200x300:200x200:high" encoder).reads =
        [0, 1, 2, 3, 4, 5, 6] ∧
      (parse_dynamic_user_string qp mem "ROI:1200x300:200x200:high" encoder).result =
        Outcome.ok ⟨DYNAMIC_ROI, 1200, ⟨300, 200, 200, 0, none⟩⟩) := by
  have h1 : g_strsplit_set "BR:100".data DYNAMIC_PARAM_DELIMIT = ["BR".data, "100".data] := by
    decide
  have h2 : g_strsplit_set "ROI:1200:300".data DYNAMIC_PARAM_DELIMIT =
      ["ROI".data, "1200".data, "300".data] := by decide
  have h3 : g_strsplit_set "ROI:1200x300:200x200:high".data DYNAMIC_PARAM_DELIMIT =
      ["ROI".data, "1200".data, "300".data, "200".data, "200".data, "high".data] := by decide
  have k1 : get_dynamic_str_enum (Slot.str "BR".data) = some DYNAMIC_BIT_RATE := by decide
  have k2 : get_dynamic_str_enum (Slot.str "ROI".data) = some DYNAMIC_ROI := by decide
  have a1 : toGuint (atoi "1200".data) = 1200 := by decide
  have a2 : toGuint (atoi "300".data) = 300 := by decide
  have a3 : toGuint (atoi "200".data) = 200 := by decide
  have a4 : toGuint (atoi "high".data) = 0 := by decide
  refine ⟨⟨by rw [h1]; rfl, ?_, ?_⟩, ⟨by rw [h2]; rfl, ?_, ?_⟩, ⟨by rw [h3]; rfl, ?_, ?_⟩⟩
  · rw [parse_of_split qp mem _ encoder _ _ h1, k1]
    simp [parse_frame_value, atoi_token, tokenAt_zero, tokenAt_succ, tokenAt_nil_zero]
  · rw [parse_of_split qp mem _ encoder _ _ h1, k1]
    simp [parse_frame_value, atoi_token, tokenAt_zero, tokenAt_succ, tokenAt_nil_zero]
  · rw [parse_of_split qp mem _ encoder _ _ h2, k2]
    simp [parse_roi, atoi_token, tokenAt_zero, tokenAt_succ, tokenAt_nil_zero]
  · rw [parse_of_split qp mem _ encoder _ _ h2, k2]
    simp [parse_roi, atoi_token, tokenAt_zero, tokenAt_succ, tokenAt_nil_zero]
  · rw [parse_of_split qp mem _ encoder _ _ h3, k2]
    simp [parse_roi, atoi_token, tokenAt_zero, tokenAt_succ, tokenAt_nil_zero]
  · rw [parse_of_split qp mem _ encoder _ _ h3, k2]
    simp [parse_roi, atoi_token, tokenAt_zero, tokenAt_succ, tokenAt_nil_zero, a1, a2, a3, a4]

theorem atoi_no_number (t : List Char)
    (h : ∀ c, t.head? = some c →
      c.isDigit = false ∧ isspace c = false ∧ c ≠ '-' ∧ c ≠ '+') :
    toGuint (atoi t) = 0 := by
  have hd : t.dropWhile isspace = t := by
    cases t with
    | nil => rfl
    | cons c r => simp [List.dropWhile, (h c rfl).2.1]
  have hm : t.head? ≠ some '-' := fun hc => (h _ hc).2.2.1 rfl
  have hp : t.head? ≠ some '+' := fun hc => (h _ hc).2.2.2 rfl
  have hr : digitRun t 0 = 0 := digitRun_stop t 0 (fun c hc => (h c hc).1)
  simp only [atoi, strtol, hd, hm, hp, if_false, hr]
  decide

/-- C5, as amended: a descriptor with a known kind and the right number of
tokens always parses; each numeric field is `atoi` of its token, converted to
`guint`, whatever the token's text, and that is 0 for a token that does not
start with white space, a sign or a digit. -/
theorem parse_fields_are_atoi (qp : Nat) (mem : DynamicFeature) (encoder : Encoder) :
    (∀ K kind, (K, kind) ∈ [("BR", DYNAMIC_BIT_RATE), ("GL", DYNAMIC_GOP_LENGTH),
        ("BFrm", DYNAMIC_B_FRAMES), ("SC", DYNAMIC_SCENE_CHANGE)] →
      ∀ s1 s2 : String, (∀ c ∈ s1.data, c ≠ ':' ∧ c ≠ 'x') → (∀ c ∈ s2.data, c ≠ ':' ∧ c ≠ 'x') →
        (parse_dynamic_user_string qp mem (K ++ ":" ++ s1 ++ ":" ++ s2) encoder).result =
          Outcome.ok ⟨kind, toGuint (atoi s1.data),
            mem.param.setValue (toGuint (atoi s2.data))⟩) ∧
    (∀ K kind, (K, kind) ∈ [("KF", DYNAMIC_KEY_FRAME), ("IL", DYNAMIC_INSERT_LONGTERM),
        ("UL", DYNAMIC_USE_LONGTERM)] →
      ∀ s1 : String, (∀ c ∈ s1.data, c ≠ ':' ∧ c ≠ 'x') →
        (parse_dynamic_user_string qp mem (K ++ ":" ++ s1) encoder).result =
          Outcome.ok ⟨kind, toGuint (atoi s1.data), mem.param⟩) ∧
    (∀ s1 s2 s3 s4 s5 q : String,
      (∀ c ∈ s1.data, c ≠ ':' ∧ c ≠ 'x') → (∀ c ∈ s2.data, c ≠ ':' ∧ c ≠ 'x') →
      (∀ c ∈ s3.data, c ≠ ':' ∧ c ≠ 'x') → (∀ c ∈ s4.data, c ≠ ':' ∧ c ≠ 'x') →
      (∀ c ∈ s5.data, c ≠ ':' ∧ c ≠ 'x') → (∀ c ∈ q.data, c ≠ ':' ∧ c ≠ 'x') →
        (parse_dynamic_user_string qp mem ("ROI:" ++ s1 ++ ":" ++ s2 ++ "x" ++ s3 ++ ":" ++
            s4 ++ "x" ++ s5 ++ ":" ++ q) encoder).result =
          Outcome.ok ⟨DYNAMIC_ROI, toGuint (atoi s1.data), ⟨toGuint (atoi s2.data),
            toGuint (atoi s3.data), toGuint (atoi s4.data), toGuint (atoi s5.data),
            some q⟩⟩) ∧
    (∀ s : String, (∀ c, s.data.head? = some c →
        c.isDigit = false ∧ isspace c = false ∧ c ≠ '-' ∧ c ≠ '+') →
      toGuint (atoi s.data) = 0) := by
  refine ⟨?_, ?_, ?_, fun s hs => atoi_no_number s.data hs⟩
  · intro K kind hK s1 s2 h1 h2
    have hdata : (K ++ ":" ++ s1 ++ ":" ++ s2).data =
        K.data ++ ':' :: (s1.data ++ ':' :: (s2.data ++ [])) := by
      simp only [String.data_append, List.append_assoc, List.append_nil]
      rfl
    have hp := fun hk hkind h0 =>
      parse_scalar_string qp mem _ encoder kind K.data _ _ _ hdata hk hkind h0
        (delimFree_of_ne s1 h1) (delimFree_of_ne s2 h2)
    simp only [List.mem_cons, Prod.mk.injEq, List.mem_singleton, List.not_mem_nil, or_false] at hK
    rcases hK with ⟨rfl, rfl⟩ | ⟨rfl, rfl⟩ | ⟨rfl, rfl⟩ | ⟨rfl, rfl⟩ <;>
      rw [hp (by decide) (by decide) (by decide), firstToken_nil, List.append_nil]
  · intro K kind hK s1 h1
    have hdata : (K ++ ":" ++ s1).data = K.data ++ ':' :: (s1.data ++ []) := by
      simp only [String.data_append, List.append_assoc, List.append_nil]
      rfl
    have hp := fun hk hkind h0 =>
      parse_frame_string qp mem _ encoder kind K.data _ _ hdata hk hkind h0
        (delimFree_of_ne s1 h1)
    simp only [List.mem_cons, Prod.mk.injEq, List.mem_singleton, List.not_mem_nil, or_false] at hK
    rcases hK with ⟨rfl, rfl⟩ | ⟨rfl, rfl⟩ | ⟨rfl, rfl⟩ <;>
      rw [hp (by decide) (by decide) (by decide), firstToken_nil, List.append_nil]
  · intro s1 s2 s3 s4 s5 q h1 h2 h3 h4 h5 hq
    have hdata : ("ROI:" ++ s1 ++ ":" ++ s2 ++ "x" ++ s3 ++ ":" ++ s4 ++ "x" ++ s5 ++ ":" ++
        q).data = "ROI".data ++ ':' :: (s1.data ++ ':' :: (s2.data ++ 'x' :: (s3.data ++ ':' ::
          (s4.data ++ 'x' :: (s5.data ++ ':' :: (q.data ++ [])))))) := by
      simp only [String.data_append, List.append_assoc, List.append_nil]
      rfl
    rw [parse_roi_string qp mem _ encoder _ _ _ _ _ _ [] hdata (delimFree_of_ne s1 h1)
      (delimFree_of_ne s2 h2) (delimFree_of_ne s3 h3) (delimFree_of_ne s4 h4)
      (delimFree_of_ne s5 h5) (delimFree_of_ne q hq)]
    simp [firstToken]

/-- C5 as amended, at `BR:abc:1000` and `GL:5:`: both parse, the non-numeric
field reads as 0. -/
theorem parse_fields_are_atoi_witness :
    (parse_dynamic_user_string 1 sampleMem ("BR" ++ ":" ++ "abc" ++ ":" ++ "1000")
        sampleEncoder).result =
      Outcome.ok ⟨DYNAMIC_BIT_RATE, toGuint (atoi "abc".data),
        sampleMem.param.setValue (toGuint (atoi "1000".data))⟩ ∧
    (parse_dynamic_user_string 1 sampleMem ("GL" ++ ":" ++ "5" ++ ":" ++ "")
        sampleEncoder).result =
      Outcome.ok ⟨DYNAMIC_GOP_LENGTH, toGuint (atoi "5".data),
        sampleMem.param.setValue (toGuint (atoi "".data))⟩ ∧
    toGuint (atoi "abc".data) = 0 ∧ toGuint (atoi "".data) = 0 :=
  ⟨(parse_fields_are_atoi 1 sampleMem sampleEncoder).1 "BR" DYNAMIC_BIT_RATE (by simp)
      "abc" "1000" (by decide) (by decide),
    (parse_fields_are_atoi 1 sampleMem sampleEncoder).1 "GL" DYNAMIC_GOP_LENGTH (by simp)
      "5" "" (by decide) (by decide),
    (parse_fields_are_atoi 1 sampleMem sampleEncoder).2.2.2 "abc" (by decide),
    (parse_fields_are_atoi 1 sampleMem sampleEncoder).2.2.2 "" (by decide)⟩

/-- C5 fails on the code: `BR:abc:1000` and `GL:5:` have a known kind, the right
number of tokens and a field that is no integer; the parser returns a
directive with that field 0. -/
theorem parse_non_numeric_field_is_zero :
    (parse_dynamic_user_string 1 sampleMem "BR:abc:1000" sampleEncoder).result =
      Outcome.ok ⟨DYNAMIC_BIT_RATE, 0, sampleMem.param.setValue 1000⟩ ∧
    (parse_dynamic_user_string 1 sampleMem "GL:5:" sampleEncoder).result =
      Outcome.ok ⟨DYNAMIC_GOP_LENGTH, 5, sampleMem.param.setValue 0⟩ := by
  refine ⟨by decide, by decide⟩

theorem parse_frame_value_encoder (type : DynamicFeatureType) (mem : DynamicFeature)
    (token : List (List Char)) (encoder : Encoder) :
    (parse_frame_value type mem token encoder).encoder = encoder ∧
    ∀ d, (parse_frame_value type mem token encoder).result = Outcome.ok d → d.type = type := by
  unfold parse_frame_value
  split
  · simp
  · split <;> simp

theorem parse_frame_encoder (type : DynamicFeatureType) (mem : DynamicFeature)
    (token : List (List Char)) (encoder : Encoder) :
    (parse_frame type mem token encoder).encoder = encoder ∧
    ∀ d, (parse_frame type mem token encoder).result = Outcome.ok d → d.type = type := by
  unfold parse_frame
  split <;> simp

theorem parse_roi_encoder (qp : Nat) (token : List (List Char)) (encoder : Encoder) :
    ((parse_roi qp token encoder).encoder = encoder ∧
      ∀ d, (parse_roi qp token encoder).result ≠ Outcome.ok d) ∨
    ((parse_roi qp token encoder).encoder = g_object_set encoder "qp-mode" qp ∧
      ∃ d, (parse_roi qp token encoder).result = Outcome.ok d ∧ d.type = DYNAMIC_ROI) := by
  unfold parse_roi
  repeat' split
  all_goals simp

/-- What the parser does to the encoder: nothing, unless it returns an ROI
directive, and then it has set `qp-mode`. -/
theorem parse_encoder_cases (qp : Nat) (mem : DynamicFeature) (str : String)
    (encoder : Encoder) :
    ((parse_dynamic_user_string qp mem str encoder).encoder = encoder ∧
      ∀ d, (parse_dynamic_user_string qp mem str encoder).result = Outcome.ok d →
        d.type ≠ DYNAMIC_ROI) ∨
    ((parse_dynamic_user_string qp mem str encoder).encoder =
        g_object_set encoder "qp-mode" qp ∧
      ∃ d, (parse_dynamic_user_string qp mem str encoder).result = Outcome.ok d ∧
        d.type = DYNAMIC_ROI) := by
  unfold parse_dynamic_user_string
  simp only
  split
  case h_5 =>
    rcases parse_roi_encoder qp (g_strsplit_set str.data DYNAMIC_PARAM_DELIMIT) encoder with
      h | h
    · exact Or.inl ⟨h.1, fun d hd => absurd hd (h.2 d)⟩
    · exact Or.inr h
  case h_9 => exact Or.inl ⟨rfl, fun d hd => by simp at hd⟩
  all_goals
    first
    | exact Or.inl ⟨(parse_frame_value_encoder _ _ _ _).1, fun d hd => by
        rw [(parse_frame_value_encoder _ _ _ _).2 d hd]; decide⟩
    | exact Or.inl ⟨(parse_frame_encoder _ _ _ _).1, fun d hd => by
        rw [(parse_frame_encoder _ _ _ _).2 d hd]; decide⟩

theorem g_object_set_other (encoder : Encoder) (name : String) (value : Nat) (k : String)
    (h : k ≠ name) : g_object_set encoder name value k = encoder k := by
  simp [g_object_set, h]

theorem g_object_set_same (encoder : Encoder) (name : String) (value : Nat) :
    g_object_set encoder name value name = value := by
  simp [g_object_set]

theorem fire_roi_encoder (d : DynamicFeature) (w : World) (b : Buffer)
    (h : d.type = DYNAMIC_ROI) : (fire d w b).1.encoder = w.encoder := by
  simp [fire, h]

/-- C8, as amended: parsing sets no encoder property other than `qp-mode`; it
leaves the encoder as it was unless it returns an ROI directive; when it
returns an ROI directive it has set `qp-mode` to `OMX_ALG_ROI_QP`, at parse
time; and the probe sets no encoder property when it meets an ROI directive,
at its trigger frame or at any other. -/
theorem parse_sets_only_qp_mode (qp : Nat) (mem : DynamicFeature) (str : String)
    (encoder : Encoder) :
    (∀ name, name ≠ "qp-mode" →
      (parse_dynamic_user_string qp mem str encoder).encoder name = encoder name) ∧
    ((∀ d, (parse_dynamic_user_string qp mem str encoder).result = Outcome.ok d →
        d.type ≠ DYNAMIC_ROI) →
      (parse_dynamic_user_string qp mem str encoder).encoder = encoder) ∧
    (∀ d, (parse_dynamic_user_string qp mem str encoder).result = Outcome.ok d →
      d.type = DYNAMIC_ROI →
      (parse_dynamic_user_string qp mem str encoder).encoder "qp-mode" = qp) ∧
    (∀ (d : DynamicFeature) (w : World) (b : Buffer), d.type = DYNAMIC_ROI →
      (videoparser_src_buffer_probe d w b).1.encoder = w.encoder) := by
  refine ⟨?_, ?_, ?_, ?_⟩
  · intro name hn
    rcases parse_encoder_cases qp mem str encoder with h | h
    · rw [h.1]
    · rw [h.1, g_object_set_other _ _ _ _ hn]
  · intro hd
    rcases parse_encoder_cases qp mem str encoder with h | h
    · exact h.1
    · obtain ⟨d, h1, h2⟩ := h.2
      exact absurd h2 (hd d h1)
  · intro d hd ht
    rcases parse_encoder_cases qp mem str encoder with h | h
    · exact absurd ht (h.2 d hd)
    · rw [h.1, g_object_set_same]
  · intro d w b hd
    unfold videoparser_src_buffer_probe
    by_cases hc : toGuint w.framecount = d.start_frame
    · simp [hc, fire_roi_encoder d w b hd]
    · simp [hc]

/-- C8 fails on the code: parsing `ROI:10:50x60:40x40:high` changes the
encoder property `qp-mode` (here from 0 to the value 1 given for
`OMX_ALG_ROI_QP`), before any frame is seen. -/
theorem parse_roi_sets_qp_mode :
    sampleEncoder "qp-mode" = 0 ∧
    (parse_dynamic_user_string 1 sampleMem "ROI:10:50x60:40x40:high" sampleEncoder).encoder
      "qp-mode" = 1 := by
  refine ⟨by decide, by decide⟩

/-- Reading back a decimal numeral below `2 ^ 31` that a comma follows. -/
theorem atoi_numeral_comma (n : Nat) (hn : n < 2 ^ 31) (s : List Char) :
    toGuint (atoi (Nat.toDigits 10 n ++ firstToken (',' :: s))) = n := by
  rw [firstToken_comma]
  apply atoi_numeral n hn
  intro c hc
  simp only [List.head?_cons, Option.some.injEq] at hc
  rw [← hc]; decide

/-- C10, as amended: text joined with a comma behind a valid descriptor `d1`
leaves the kind, the trigger frame and every numeric field as in `d1` alone,
whatever the text `d2` is; for the seven kinds other than ROI the directive is
the same as that of `d1`.  The label of an ROI descriptor is not kept: it
becomes the label, the comma and the first token of `d2`. -/
theorem parse_comma_joined (f v : Nat) (hf : f < 2 ^ 31) (hv : v < 2 ^ 31) (d2 : String)
    (qp : Nat) (mem : DynamicFeature) (encoder : Encoder) :
    (∀ K kind, (K, kind) ∈ [("BR", DYNAMIC_BIT_RATE), ("GL", DYNAMIC_GOP_LENGTH),
        ("BFrm", DYNAMIC_B_FRAMES), ("SC", DYNAMIC_SCENE_CHANGE)] →
      (parse_dynamic_user_string qp mem
          ((K ++ ":" ++ toString f ++ ":" ++ toString v) ++ "," ++ d2) encoder).result =
        (parse_dynamic_user_string qp mem (K ++ ":" ++ toString f ++ ":" ++ toString v)
          encoder).result ∧
      (parse_dynamic_user_string qp mem (K ++ ":" ++ toString f ++ ":" ++ toString v)
          encoder).result = Outcome.ok ⟨kind, f, mem.param.setValue v⟩) ∧
    (∀ K kind, (K, kind) ∈ [("KF", DYNAMIC_KEY_FRAME), ("IL", DYNAMIC_INSERT_LONGTERM),
        ("UL", DYNAMIC_USE_LONGTERM)] →
      (parse_dynamic_user_string qp mem ((K ++ ":" ++ toString f) ++ "," ++ d2)
          encoder).result =
        (parse_dynamic_user_string qp mem (K ++ ":" ++ toString f) encoder).result ∧
      (parse_dynamic_user_string qp mem (K ++ ":" ++ toString f) encoder).result =
        Outcome.ok ⟨kind, f, mem.param⟩) ∧
    (∀ (X Y W H : Nat) (q : String), X < 2 ^ 31 → Y < 2 ^ 31 → W < 2 ^ 31 → H < 2 ^ 31 →
      (∀ c ∈ q.data, c ≠ ':' ∧ c ≠ 'x') →
      (parse_dynamic_user_string qp mem
          (("ROI:" ++ toString f ++ ":" ++ toString X ++ "x" ++ toString Y ++ ":" ++
            toString W ++ "x" ++ toString H ++ ":" ++ q) ++ "," ++ d2) encoder).result =
        Outcome.ok ⟨DYNAMIC_ROI, f, ⟨X, Y, W, H,
          some (q ++ "," ++ String.mk (firstToken d2.data))⟩⟩ ∧
      (parse_dynamic_user_string qp mem
          ("ROI:" ++ toString f ++ ":" ++ toString X ++ "x" ++ toString Y ++ ":" ++
            toString W ++ "x" ++ toString H ++ ":" ++ q) encoder).result =
        Outcome.ok ⟨DYNAMIC_ROI, f, ⟨X, Y, W, H, some q⟩⟩) := by
  have hF := toDigits_delimFree f
  have hV := toDigits_delimFree v
  have af := atoi_numeral_nil f hf
  refine ⟨?_, ?_, ?_⟩
  · intro K kind hK
    have h1 := (parse_scalar_and_frame_descriptors_aux f v hf hv qp mem encoder).1 K kind hK
    have hdata : ((K ++ ":" ++ toString f ++ ":" ++ toString v) ++ "," ++ d2).data =
        K.data ++ ':' :: (Nat.toDigits 10 f ++ ':' :: (Nat.toDigits 10 v ++ ',' :: d2.data)) := by
      simp only [String.data_append, repr_data, List.append_assoc]
      rfl
    have hp := fun hk hkind h0 =>
      parse_scalar_string qp mem _ encoder kind K.data _ _ _ hdata hk hkind h0 hF hV
    simp only [List.mem_cons, Prod.mk.injEq, List.mem_singleton, List.not_mem_nil, or_false] at hK
    refine ⟨?_, h1⟩
    rw [h1]
    rcases hK with ⟨rfl, rfl⟩ | ⟨rfl, rfl⟩ | ⟨rfl, rfl⟩ | ⟨rfl, rfl⟩ <;>
      rw [hp (by decide) (by decide) (by decide), af, atoi_numeral_comma v hv]
  · intro K kind hK
    have h1 := (parse_scalar_and_frame_descriptors_aux f v hf hv qp mem encoder).2 K kind hK
    have hdata : ((K ++ ":" ++ toString f) ++ "," ++ d2).data =
        K.data ++ ':' :: (Nat.toDigits 10 f ++ ',' :: d2.data) := by
      simp only [String.data_append, repr_data, List.append_assoc]
      rfl
    have hp := fun hk hkind h0 =>
      parse_frame_string qp mem _ encoder kind K.data _ _ hdata hk hkind h0 hF
    simp only [List.mem_cons, Prod.mk.injEq, List.mem_singleton, List.not_mem_nil, or_false] at hK
    refine ⟨?_, h1⟩
    rw [h1]
    rcases hK with ⟨rfl, rfl⟩ | ⟨rfl, rfl⟩ | ⟨rfl, rfl⟩ <;>
      rw [hp (by decide) (by decide) (by decide), atoi_numeral_comma f hf]
  · intro X Y W H q hX hY hW hH hq
    refine ⟨?_, parse_roi_descriptor_aux f X Y W H q hf hX hY hW hH hq qp mem encoder⟩
    have hdata : (("ROI:" ++ toString f ++ ":" ++ toString X ++ "x" ++ toString Y ++ ":" ++
        toString W ++ "x" ++ toString H ++ ":" ++ q) ++ "," ++ d2).data =
        "ROI".data ++ ':' :: (Nat.toDigits 10 f ++ ':' :: (Nat.toDigits 10 X ++ 'x' ::
          (Nat.toDigits 10 Y ++ ':' :: (Nat.toDigits 10 W ++ 'x' :: (Nat.toDigits 10 H ++ ':' ::
            (q.data ++ ',' :: d2.data)))))) := by
      simp only [String.data_append, repr_data, List.append_assoc]
      rfl
    rw [parse_roi_string qp mem _ encoder _ _ _ _ _ _ _ hdata (toDigits_delimFree f)
      (toDigits_delimFree X) (toDigits_delimFree Y) (toDigits_delimFree W)
      (toDigits_delimFree H) (delimFree_of_ne q hq)]
    rw [atoi_numeral_nil f hf, atoi_numeral_nil X hX, atoi_numeral_nil Y hY,
      atoi_numeral_nil W hW, atoi_numeral_nil H hH, firstToken_comma]
    have hs : String.mk (q.data ++ ',' :: firstToken d2.data) =
        q ++ "," ++ String.mk (firstToken d2.data) := by
      apply String.ext
      simp only [String.data_append, List.append_assoc]
      rfl
    rw [hs]

/-- C10 as amended, at `BR:100:1000` followed by `,KF:5`. -/
theorem parse_comma_joined_witness :
    (parse_dynamic_user_string 1 sampleMem
        (("BR" ++ ":" ++ toString 100 ++ ":" ++ toString 1000) ++ "," ++ "KF:5")
        sampleEncoder).result =
      (parse_dynamic_user_string 1 sampleMem ("BR" ++ ":" ++ toString 100 ++ ":" ++
        toString 1000) sampleEncoder).result ∧
    (parse_dynamic_user_string 1 sampleMem ("BR" ++ ":" ++ toString 100 ++ ":" ++
        toString 1000) sampleEncoder).result =
      Outcome.ok ⟨DYNAMIC_BIT_RATE, 100, sampleMem.param.setValue 1000⟩ :=
  (parse_comma_joined 100 1000 (by decide) (by decide) "KF:5" 1 sampleMem sampleEncoder).1
    "BR" DYNAMIC_BIT_RATE (by simp)

/-- C10 fails on the code for an ROI descriptor: `ROI:10:50x60:40x40:high` and
`KF:5` are valid on their own, and joined with a comma they parse to the label
`high,KF`, not to the label `high` of the first descriptor. -/
theorem parse_comma_joined_roi_label :
    (parse_dynamic_user_string 1 sampleMem "ROI:10:50x60:40x40:high" sampleEncoder).result =
      Outcome.ok ⟨DYNAMIC_ROI, 10, ⟨50, 60, 40, 40, some "high"⟩⟩ ∧
    (parse_dynamic_user_string 1 sampleMem "KF:5" sampleEncoder).result =
      Outcome.ok ⟨DYNAMIC_KEY_FRAME, 5, sampleMem.param⟩ ∧
    (parse_dynamic_user_string 1 sampleMem ("ROI:10:50x60:40x40:high" ++ "," ++ "KF:5")
        sampleEncoder).result =
      Outcome.ok ⟨DYNAMIC_ROI, 10, ⟨50, 60, 40, 40, some "high,KF"⟩⟩ := by
  refine ⟨by decide, by decide, by decide⟩

/-! ## The probe -/

theorem fire_framecount (d : DynamicFeature) (w : World) (b : Buffer) :
    (fire d w b).1.framecount = w.framecount := by
  unfold fire
  split <;> rfl

theorem fire_calls (d : DynamicFeature) (w : World) (b : Buffer) :
    ∃ c, (fire d w b).1.calls = w.calls ++ [c] := by
  unfold fire
  split <;> exact ⟨_, rfl⟩

theorem probe_framecount (d : DynamicFeature) (w : World) (b : Buffer) :
    (videoparser_src_buffer_probe d w b).1.framecount = toInt32 (w.framecount + 1) := by
  unfold videoparser_src_buffer_probe
  by_cases hc : toGuint w.framecount = d.start_frame
  · simp [hc, fire_framecount]
  · simp [hc]

theorem probe_calls (d : DynamicFeature) (w : World) (b : Buffer) :
    (toGuint w.framecount = d.start_frame ∧
      ∃ c, (videoparser_src_buffer_probe d w b).1.calls = w.calls ++ [c]) ∨
    (toGuint w.framecount ≠ d.start_frame ∧
      (videoparser_src_buffer_probe d w b).1.calls = w.calls) := by
  unfold videoparser_src_buffer_probe
  by_cases hc : toGuint w.framecount = d.start_frame
  · obtain ⟨c, h⟩ := fire_calls d w b
    exact Or.inl ⟨hc, c, by simp [hc, h]⟩
  · exact Or.inr ⟨hc, by simp [hc]⟩

theorem toInt32_succ (x : Int) : toInt32 (toInt32 x + 1) = toInt32 (x + 1) := by
  unfold toInt32
  omega

/-- The frame counter after `n` calls, from 0: `n` converted to `int`. -/
theorem worldAt_framecount (d : DynamicFeature) (w0 : World) (bufs : Nat → Buffer)
    (h0 : w0.framecount = 0) (n : Nat) :
    (worldAt d w0 bufs n).framecount = toInt32 (n : Int) := by
  induction n with
  | zero => simp [worldAt, h0, toInt32]
  | succ n ih =>
    rw [worldAt, probe_framecount, ih, toInt32_succ]
    simp

theorem toInt32_of_lt (n : Nat) (h : n < 2 ^ 31) : toInt32 (n : Int) = n := by
  unfold toInt32
  omega

theorem toGuint_of_lt (n : Nat) (h : n < 2 ^ 31) : toGuint (n : Int) = n := by
  unfold toGuint
  omega

/-- The call for frame index `i` executes the directive exactly when the frame
counter, as a `guint`, is the trigger frame. -/
theorem executedAt_iff (d : DynamicFeature) (w0 : World) (bufs : Nat → Buffer) (i : Nat) :
    executedAt d w0 bufs i = true ↔
      toGuint (worldAt d w0 bufs i).framecount = d.start_frame := by
  unfold executedAt callsAt
  rw [worldAt]
  rcases probe_calls d (worldAt d w0 bufs i) (bufs i) with ⟨hc, c, h⟩ | ⟨hc, h⟩
  · rw [h]; simp [hc]
  · rw [h]; simp [hc]

theorem executedAt_iff_eq (d : DynamicFeature) (w0 : World) (bufs : Nat → Buffer)
    (h0 : w0.framecount = 0) (i : Nat) (hi : i < 2 ^ 31) :
    executedAt d w0 bufs i = true ↔ i = d.start_frame := by
  rw [executedAt_iff, worldAt_framecount d w0 bufs h0, toInt32_of_lt i hi, toGuint_of_lt i hi]

theorem executions_eq (d : DynamicFeature) (w0 : World) (bufs : Nat → Buffer)
    (h0 : w0.framecount = 0) (n : Nat) (hn : n ≤ 2 ^ 31) :
    executions d w0 bufs n = if d.start_frame < n then 1 else 0 := by
  unfold executions
  induction n with
  | zero => simp
  | succ n ih =>
    have ihn := ih (by omega)
    have hf : (List.filter (executedAt d w0 bufs) [n]).length =
        if n = d.start_frame then 1 else 0 := by
      by_cases he : n = d.start_frame
      · have hx : executedAt d w0 bufs n = true :=
          (executedAt_iff_eq d w0 bufs h0 n (by omega)).2 he
        rw [if_pos he, List.filter_cons_of_pos hx]
        rfl
      · have hx : ¬ executedAt d w0 bufs n = true :=
          fun h => he ((executedAt_iff_eq d w0 bufs h0 n (by omega)).1 h)
        rw [if_neg he, List.filter_cons_of_neg hx]
        rfl
    rw [List.range_succ, List.filter_append, List.length_append, ihn, hf]
    split_ifs <;> omega

/-- One call of the probe: at the trigger frame the world and the buffer are
those the Executor of the specification leaves, at any other frame nothing
changes; the counter moves on in both cases. -/
theorem probe_eq_executor (d : DynamicFeature) (w : World) (b : Buffer) :
    videoparser_src_buffer_probe d w b =
      if toGuint w.framecount = d.start_frame then
        (⟨toInt32 (w.framecount + 1), executorEncoder d w.encoder,
          w.calls ++ executorCalls d b⟩, executorBuffer d b)
      else (⟨toInt32 (w.framecount + 1), w.encoder, w.calls⟩, b) := by
  unfold videoparser_src_buffer_probe
  by_cases hc : toGuint w.framecount = d.start_frame
  · rw [if_pos hc, if_pos hc]
    rcases d with ⟨ty, sf, p⟩
    cases ty <;> rfl
  · rw [if_neg hc, if_neg hc]

/-- The calls of one frame, from `framecount = 0` and below `2 ^ 31`. -/
theorem callsAt_eq (d : DynamicFeature) (w0 : World) (bufs : Nat → Buffer)
    (h0 : w0.framecount = 0) (i : Nat) (hi : i < 2 ^ 31) :
    callsAt d w0 bufs i = if i = d.start_frame then executorCalls d (bufs i) else [] := by
  have hfc : toGuint (worldAt d w0 bufs i).framecount = i := by
    rw [worldAt_framecount d w0 bufs h0, toInt32_of_lt i hi, toGuint_of_lt i hi]
  unfold callsAt
  rw [worldAt, probe_eq_executor, hfc]
  by_cases he : i = d.start_frame
  · rw [if_pos he, if_pos he]; simp
  · rw [if_neg he, if_neg he]; simp

/-- All the calls made in the first `n` calls of the probe, from
`framecount = 0`: those of the trigger frame, when it is among them. -/
theorem worldAt_calls (d : DynamicFeature) (w0 : World) (bufs : Nat → Buffer)
    (h0 : w0.framecount = 0) (n : Nat) (hn : n ≤ 2 ^ 31) :
    (worldAt d w0 bufs n).calls =
      w0.calls ++ if d.start_frame < n then executorCalls d (bufs d.start_frame) else [] := by
  induction n with
  | zero => simp [worldAt]
  | succ n ih =>
    have ihn := ih (by omega)
    have hfc : toGuint (worldAt d w0 bufs n).framecount = n := by
      rw [worldAt_framecount d w0 bufs h0, toInt32_of_lt n (by omega),
        toGuint_of_lt n (by omega)]
    rw [worldAt, probe_eq_executor, hfc]
    by_cases he : n = d.start_frame
    · rw [if_pos he]
      simp only []
      rw [ihn, if_neg (by omega), if_pos (by omega), he]
      simp
    · rw [if_neg he]
      simp only []
      rw [ihn]
      by_cases hlt : d.start_frame < n
      · rw [if_pos hlt, if_pos (by omega)]
      · rw [if_neg hlt, if_neg (by omega)]

/-- C6: with the probe called once per frame for the frames `0..N`, from
`framecount = 0` and for `N` below `2 ^ 31`, the call for frame `i` executes
the directive's effect exactly when `i` is the trigger frame `t`: at frame `t`
the calls made, the encoder and the buffer are those of the specification's
Executor for this directive and this buffer, at every other frame no call is
made and the encoder and the buffer are left as they were.  So the effect is
executed once in all when `t ≤ N` and never when `t > N`, and the calls made
over the whole run are those of frame `t` or none. -/
theorem probe_executes_exactly_at_start_frame (d : DynamicFeature) (w0 : World)
    (bufs : Nat → Buffer) (N : Nat) (h0 : w0.framecount = 0) (hN : N < 2 ^ 31) :
    (∀ i, i ≤ N → (executedAt d w0 bufs i = true ↔ i = d.start_frame)) ∧
    (∀ i, i ≤ N →
      callsAt d w0 bufs i = if i = d.start_frame then executorCalls d (bufs i) else []) ∧
    (∀ i, i ≤ N →
      (videoparser_src_buffer_probe d (worldAt d w0 bufs i) (bufs i)).1.encoder =
        if i = d.start_frame then executorEncoder d (worldAt d w0 bufs i).encoder
        else (worldAt d w0 bufs i).encoder) ∧
    (∀ i, i ≤ N →
      (videoparser_src_buffer_probe d (worldAt d w0 bufs i) (bufs i)).2 =
        if i = d.start_frame then executorBuffer d (bufs i) else bufs i) ∧
    (d.start_frame ≤ N → executions d w0 bufs (N + 1) = 1) ∧
    (N < d.start_frame → executions d w0 bufs (N + 1) = 0) ∧
    (worldAt d w0 bufs (N + 1)).calls =
      w0.calls ++ if d.start_frame ≤ N then executorCalls d (bufs d.start_frame) else [] := by
  have hfc : ∀ i, i ≤ N → toGuint (worldAt d w0 bufs i).framecount = i := by
    intro i hi
    rw [worldAt_framecount d w0 bufs h0, toInt32_of_lt i (by omega),
      toGuint_of_lt i (by omega)]
  refine ⟨fun i hi => executedAt_iff_eq d w0 bufs h0 i (by omega),
    fun i hi => callsAt_eq d w0 bufs h0 i (by omega), ?_, ?_, ?_, ?_, ?_⟩
  · intro i hi
    rw [probe_eq_executor, hfc i hi]
    by_cases he : i = d.start_frame
    · rw [if_pos he, if_pos he]
    · rw [if_neg he, if_neg he]
  · intro i hi
    rw [probe_eq_executor, hfc i hi]
    by_cases he : i = d.start_frame
    · rw [if_pos he, if_pos he]
    · rw [if_neg he, if_neg he]
  · intro h
    rw [executions_eq d w0 bufs h0 (N + 1) (by omega), if_pos (by omega)]
  · intro h
    rw [executions_eq d w0 bufs h0 (N + 1) (by omega), if_neg (by omega)]
  · rw [worldAt_calls d w0 bufs h0 (N + 1) (by omega)]
    by_cases hle : d.start_frame ≤ N
    · rw [if_pos (by omega), if_pos hle]
    · rw [if_neg (by omega), if_neg hle]

/-- C6 at a bit-rate directive with value 1000 for frame 100, frames `0..200`:
at frame 100 the one call is the set of `target-bitrate` to 1000, at frames 99
and 101 no call is made, and the run makes that one call in all. -/
theorem probe_executes_exactly_at_start_frame_witness :
    (executedAt ⟨DYNAMIC_BIT_RATE, 100, ⟨1000, 0, 0, 0, none⟩⟩ sampleWorld sampleBuffers 100 =
        true ↔ 100 = 100) ∧
    (executedAt ⟨DYNAMIC_BIT_RATE, 100, ⟨1000, 0, 0, 0, none⟩⟩ sampleWorld sampleBuffers 99 =
        true ↔ 99 = 100) ∧
    (executedAt ⟨DYNAMIC_BIT_RATE, 100, ⟨1000, 0, 0, 0, none⟩⟩ sampleWorld sampleBuffers 101 =
        true ↔ 101 = 100) ∧
    callsAt ⟨DYNAMIC_BIT_RATE, 100, ⟨1000, 0, 0, 0, none⟩⟩ sampleWorld sampleBuffers 100 =
      [Call.set_property "target-bitrate" 1000] ∧
    callsAt ⟨DYNAMIC_BIT_RATE, 100, ⟨1000, 0, 0, 0, none⟩⟩ sampleWorld sampleBuffers 99 = [] ∧
    callsAt ⟨DYNAMIC_BIT_RATE, 100, ⟨1000, 0, 0, 0, none⟩⟩ sampleWorld sampleBuffers 101 = [] ∧
    executions ⟨DYNAMIC_BIT_RATE, 100, ⟨1000, 0, 0, 0, none⟩⟩ sampleWorld sampleBuffers
      (200 + 1) = 1 ∧
    (worldAt ⟨DYNAMIC_BIT_RATE, 100, ⟨1000, 0, 0, 0, none⟩⟩ sampleWorld sampleBuffers
      (200 + 1)).calls = [Call.set_property "target-bitrate" 1000] :=
  have h := probe_executes_exactly_at_start_frame ⟨DYNAMIC_BIT_RATE, 100, ⟨1000, 0, 0, 0, none⟩⟩
    sampleWorld sampleBuffers 200 rfl (by decide)
  ⟨h.1 100 (by decide), h.1 99 (by decide), h.1 101 (by decide),
    h.2.1 100 (by decide), h.2.1 99 (by decide), h.2.1 101 (by decide),
    h.2.2.2.2.1 (by decide), h.2.2.2.2.2.2⟩

/-- C7, as amended: in a run of fewer than `2 ^ 31` calls of the probe, from
`framecount = 0`, the directive's effect is executed at most once, no call
after the one that executed it executes it again, and the frame counter after
`n` calls is `n`. -/
theorem probe_executes_at_most_once (d : DynamicFeature) (w0 : World) (bufs : Nat → Buffer)
    (n : Nat) (h0 : w0.framecount = 0) (hn : n < 2 ^ 31) :
    executions d w0 bufs n ≤ 1 ∧
    (∀ i j, i < j → j < n → executedAt d w0 bufs i = true → executedAt d w0 bufs j = false) ∧
    (worldAt d w0 bufs n).framecount = n := by
  refine ⟨?_, ?_, ?_⟩
  · rw [executions_eq d w0 bufs h0 n (by omega)]
    split_ifs <;> omega
  · intro i j hij hj hi
    rw [executedAt_iff_eq d w0 bufs h0 i (by omega)] at hi
    rw [← Bool.not_eq_true, executedAt_iff_eq d w0 bufs h0 j (by omega)]
    omega
  · rw [worldAt_framecount d w0 bufs h0, toInt32_of_lt n hn]

/-- C7 as amended, on a run of 1000 calls. -/
theorem probe_executes_at_most_once_witness :
    executions sampleDirective sampleWorld sampleBuffers 1000 ≤ 1 ∧
    (∀ i j, i < j → j < 1000 → executedAt sampleDirective sampleWorld sampleBuffers i = true →
      executedAt sampleDirective sampleWorld sampleBuffers j = false) ∧
    (worldAt sampleDirective sampleWorld sampleBuffers 1000).framecount = (1000 : Nat) :=
  probe_executes_at_most_once sampleDirective sampleWorld sampleBuffers 1000 rfl (by decide)

/-- C7 fails on the code for long runs: `framecount` is an `int`, so after
`2 ^ 31` calls it is not `2 ^ 31` (with the wrap of two's complement it is
`-2 ^ 31`), and a directive for frame 0, executed in the first call, is
executed again in the call after `2 ^ 32` frames. -/
theorem probe_counter_wraps :
    (worldAt sampleDirective sampleWorld sampleBuffers (2 ^ 31)).framecount = -2 ^ 31 ∧
    executedAt sampleDirective sampleWorld sampleBuffers 0 = true ∧
    executedAt sampleDirective sampleWorld sampleBuffers (2 ^ 32) = true := by
  refine ⟨?_, ?_, ?_⟩
  · rw [worldAt_framecount _ _ _ rfl]
    norm_num [toInt32]
  · rw [executedAt_iff, worldAt_framecount _ _ _ rfl]
    norm_num [toInt32, toGuint, sampleDirective]
  · rw [executedAt_iff, worldAt_framecount _ _ _ rfl]
    norm_num [toInt32, toGuint, sampleDirective]

/-- A directive that sets an encoder property, at its trigger frame: the
world and the buffer the probe leaves. -/
theorem probe_set_property (d : DynamicFeature) (w : World) (b : Buffer)
    (kind : DynamicFeatureType) (prop : String)
    (hk : (kind, prop) ∈ [(DYNAMIC_BIT_RATE, "target-bitrate"),
      (DYNAMIC_GOP_LENGTH, "gop-length"), (DYNAMIC_B_FRAMES, "b-frames")])
    (hd : d.type = kind) (hfire : toGuint w.framecount = d.start_frame) :
    (videoparser_src_buffer_probe d w b).1.encoder =
        g_object_set w.encoder prop d.param.value ∧
      (videoparser_src_buffer_probe d w b).1.calls =
        w.calls ++ [Call.set_property prop d.param.value] ∧
      (videoparser_src_buffer_probe d w b).2 = b := by
  simp only [List.mem_cons, Prod.mk.injEq, List.mem_singleton, List.not_mem_nil, or_false] at hk
  unfold videoparser_src_buffer_probe
  rcases hk with ⟨rfl, rfl⟩ | ⟨rfl, rfl⟩ | ⟨rfl, rfl⟩ <;> simp [hfire, fire, hd]

/-- C9: when a directive of kind `DYNAMIC_BIT_RATE`, `DYNAMIC_GOP_LENGTH` or
`DYNAMIC_B_FRAMES` with value `v` fires in the probe, the encoder property
`target-bitrate`, `gop-length` or `b-frames` is `v` afterwards and every other
property is as before; the buffer is as before (no region meta), the one call
made is that property set (no event); and a second execution leaves the
encoder as the first left it. -/
theorem probe_sets_one_property (d : DynamicFeature) (w : World) (b : Buffer) (v : Nat)
    (hv : d.param.value = v) (hfire : toGuint w.framecount = d.start_frame) :
    ∀ kind prop, (kind, prop) ∈ [(DYNAMIC_BIT_RATE, "target-bitrate"),
        (DYNAMIC_GOP_LENGTH, "gop-length"), (DYNAMIC_B_FRAMES, "b-frames")] →
      d.type = kind →
      (videoparser_src_buffer_probe d w b).1.encoder prop = v ∧
      (∀ name, name ≠ prop →
        (videoparser_src_buffer_probe d w b).1.encoder name = w.encoder name) ∧
      (videoparser_src_buffer_probe d w b).2 = b ∧
      (videoparser_src_buffer_probe d w b).1.calls = w.calls ++ [Call.set_property prop v] ∧
      (∀ (w2 : World) (b2 : Buffer),
        w2.encoder = (videoparser_src_buffer_probe d w b).1.encoder →
        toGuint w2.framecount = d.start_frame →
        (videoparser_src_buffer_probe d w2 b2).1.encoder =
          (videoparser_src_buffer_probe d w b).1.encoder) := by
  intro kind prop hk hd
  obtain ⟨he, hc, hb⟩ := probe_set_property d w b kind prop hk hd hfire
  rw [hv] at he hc
  refine ⟨?_, ?_, hb, hc, ?_⟩
  · rw [he, g_object_set_same]
  · intro name hn
    rw [he, g_object_set_other _ _ _ _ hn]
  · intro w2 b2 hw2 hf2
    rw [(probe_set_property d w2 b2 kind prop hk hd hf2).1, hv, hw2, he]
    funext k
    simp only [g_object_set]
    split_ifs <;> rfl

/-- C9 at a bit-rate directive with value 1000 for frame 0, on the first
frame. -/
theorem probe_sets_one_property_witness :
    (videoparser_src_buffer_probe ⟨DYNAMIC_BIT_RATE, 0, ⟨1000, 0, 0, 0, none⟩⟩ sampleWorld
        (sampleBuffers 0)).1.encoder "target-bitrate" = 1000 ∧
    (videoparser_src_buffer_probe ⟨DYNAMIC_BIT_RATE, 0, ⟨1000, 0, 0, 0, none⟩⟩ sampleWorld
        (sampleBuffers 0)).2 = sampleBuffers 0 ∧
    (videoparser_src_buffer_probe ⟨DYNAMIC_BIT_RATE, 0, ⟨1000, 0, 0, 0, none⟩⟩ sampleWorld
        (sampleBuffers 0)).1.calls =
      sampleWorld.calls ++ [Call.set_property "target-bitrate" 1000] :=
  have h := probe_sets_one_property ⟨DYNAMIC_BIT_RATE, 0, ⟨1000, 0, 0, 0, none⟩⟩ sampleWorld
    (sampleBuffers 0) 1000 rfl (by decide) DYNAMIC_BIT_RATE "target-bitrate" (by simp) rfl
  ⟨h.1, h.2.2.1, h.2.2.2.1⟩

end VcuEncode
